import Mathlib

/-!
Verification of the `hw-app-concordium` transaction serializer and staged
signing dispatcher (`src/serialization.ts`, `src/utils.ts`, `src/Concordium.ts`).

Byte sequences are modelled as `List ℕ` (every produced element is a value
`< 256`).  JavaScript `throw` sites are modelled with `Except JsError`.
Numeric inputs that are JavaScript `Number`s or `BigInt`s at every call site
are modelled as `ℤ`.
-/

/-- A byte string: the contents of a Node `Buffer`. -/
abbrev Bytes := List ℕ

/-- The error outcomes of the TypeScript code that matter here:
`rangeError` for the encoders' range checks and `Buffer` read/write range
failures, `typeError` for `Buffer.from`/`Buffer.concat` on non-convertible
values, and `userDeclined` for `throw new Error("User has declined.")`. -/
inductive JsError where
  | rangeError
  | typeError
  | userDeclined
deriving DecidableEq, Repr

deriving instance DecidableEq for Except

/-- Big-endian byte string of width `w` for the value `v` (callers pass
`v < 256 ^ w`; this is what `DataView.setUint32`/`setBigUint64`/`writeUInt32BE`
store). -/
def beBytes (w v : ℕ) : Bytes :=
  (List.range w).map fun i => v / 256 ^ (w - 1 - i) % 256

theorem beBytes_length (w v : ℕ) : (beBytes w v).length = w := by
  simp [beBytes]

/-- `utils.ts` `encodeInt8`: rejects values outside `[-128, 127]`, otherwise
one byte (two's complement, i.e. the value modulo 256).  The
`Number.isInteger` guard never fires on the integer domain modelled here. -/
def encodeInt8 (value : ℤ) : Except JsError Bytes :=
  if 127 < value ∨ value < -128 then .error .rangeError
  else .ok (beBytes 1 (value % 256).toNat)

/-- `utils.ts` (companion file) `encodeWord16`: rejects values outside
`[0, 65535]`, otherwise two big-endian bytes. -/
def encodeWord16 (value : ℤ) : Except JsError Bytes :=
  if 65535 < value ∨ value < 0 then .error .rangeError
  else .ok (beBytes 2 (value % 65536).toNat)

/-- `utils.ts` `encodeInt32`: rejects values outside `[-2^31, 2^31-1]`,
otherwise four big-endian bytes (two's complement). -/
def encodeInt32 (value : ℤ) : Except JsError Bytes :=
  if value < -2147483648 ∨ 2147483647 < value then .error .rangeError
  else .ok (beBytes 4 (value % 4294967296).toNat)

/-- `utils.ts` `encodeWord32`: rejects values outside `[0, 4294967295]`,
otherwise four big-endian bytes. -/
def encodeWord32 (value : ℤ) : Except JsError Bytes :=
  if 4294967295 < value ∨ value < 0 then .error .rangeError
  else .ok (beBytes 4 (value % 4294967296).toNat)

/-- `utils.ts` `encodeWord64`.  The source guard is
`value > BigInt(18446744073709551615) || value < BigInt(0)`.
`18446744073709551615` is a `Number` literal, and the nearest double to
`2^64 - 1` is `2^64`, so `BigInt(18446744073709551615)` evaluates to `2^64`
(not `2^64 - 1`): the guard only rejects values strictly above `2^64`.
An accepted value is then stored with `DataView.setBigUint64`, which wraps
modulo `2^64` (`ToBigUint64`). -/
def encodeWord64 (value : ℤ) : Except JsError Bytes :=
  if 18446744073709551616 < value ∨ value < 0 then .error .rangeError
  else .ok (beBytes 8 (value % 18446744073709551616).toNat)

/-- `utils.ts` (companion file) `encodeDataBlob`: 16-bit length prefix
followed by the blob's own bytes. -/
def encodeDataBlob (data : Bytes) : Except JsError Bytes := do
  let len ← encodeWord16 data.length
  .ok (len ++ data)

/-- Node `buf.readUInt8(0)`: first byte, range error when the buffer is
empty. -/
def readUInt8 (b : Bytes) : Except JsError ℕ :=
  match b with
  | b0 :: _ => .ok b0
  | [] => .error .rangeError

/-- Node `buf.readUInt16BE(0)`: big-endian 16-bit read, range error when
fewer than two bytes are available. -/
def readUInt16BE (b : Bytes) : Except JsError ℕ :=
  match b with
  | b0 :: b1 :: _ => .ok (b0 * 256 + b1)
  | _ => .error .rangeError

/-- Node `buf.readUInt32BE(0)`: big-endian 32-bit read, range error when
fewer than four bytes are available. -/
def readUInt32BE (b : Bytes) : Except JsError ℕ :=
  match b with
  | b0 :: b1 :: b2 :: b3 :: _ => .ok (((b0 * 256 + b1) * 256 + b2) * 256 + b3)
  | _ => .error .rangeError

/-- Node `buf.subarray(start, start+len)` (start and end clamped to the
buffer). -/
def subarrayLen (b : Bytes) (start len : ℕ) : Bytes :=
  (b.drop start).take len

/-- Digit-run value, for the digits-only prefix that `parseInt` consumes. -/
def natOfDigits (ds : List Char) : ℕ :=
  ds.foldl (fun a c => a * 10 + (c.toNat - 48)) 0

/-- JavaScript `parseInt(element, 10)`: an optional sign followed by the
longest digit prefix; `NaN` (here `none`) when that prefix is empty. -/
def parseIntJs (cs : List Char) : Option ℤ :=
  match cs with
  | '-' :: rest =>
      let ds := rest.takeWhile Char.isDigit
      if ds = [] then none else some (-(natOfDigits ds : ℤ))
  | '+' :: rest =>
      let ds := rest.takeWhile Char.isDigit
      if ds = [] then none else some (natOfDigits ds : ℤ)
  | _ =>
      let ds := cs.takeWhile Char.isDigit
      if ds = [] then none else some (natOfDigits ds : ℤ)

/-- One step of the `components.forEach` body of `splitPath`
(`serialization.ts`): skip the component when `parseInt` gives `NaN`,
add `0x80000000` when the component is longer than one character and ends
with the hardening apostrophe, and push the result. -/
def splitPathStep (result : List ℤ) (element : List Char) : List ℤ :=
  match parseIntJs element with
  | none => result
  | some n =>
      let n := if 1 < element.length ∧ element.getLast? = some (Char.ofNat 39)
               then n + 2147483648 else n
      result ++ [n]

/-- The `forEach` fold of `splitPath` over the slash-separated components. -/
def splitPathComponents (comps : List (List Char)) : List ℤ :=
  comps.foldl splitPathStep []

/-- `path.split("/")` on the character list (keeps empty components, like the
JavaScript original). -/
def splitOnSlashAux : List Char → List Char → List (List Char)
  | [], acc => [acc.reverse]
  | c :: rest, acc =>
      if c = '/' then acc.reverse :: splitOnSlashAux rest []
      else splitOnSlashAux rest (c :: acc)

def splitOnSlash (cs : List Char) : List (List Char) := splitOnSlashAux cs []

/-- `serialization.ts` `splitPath`. -/
def splitPath (path : String) : List ℤ :=
  splitPathComponents (splitOnSlash path.data)

/-- Node `buf.writeUInt32BE`: validates `[0, 2^32-1]`, stores four
big-endian bytes. -/
def writeUInt32BE (value : ℤ) : Except JsError Bytes :=
  if value < 0 ∨ 4294967295 < value then .error .rangeError
  else .ok (beBytes 4 value.toNat)

/-- Node `buf.writeUInt8`: validates `[0, 255]`. -/
def writeUInt8 (value : ℤ) : Except JsError Bytes :=
  if value < 0 ∨ 255 < value then .error .rangeError
  else .ok [value.toNat]

/-- `serialization.ts` `serializePath`: a count byte followed by each
component as a big-endian 32-bit value. -/
def serializePath (path : List ℤ) : Except JsError Bytes := do
  let count ← writeUInt8 (path.length : ℤ)
  let nums ← path.mapM writeUInt32BE
  .ok (count ++ nums.flatten)

/-- The `pathBuffer` built inline by
`serializeTransactionPayloadsWithDerivationPath`: `pathBuffer[0] = paths.length`
is a `Uint8Array` store (wraps modulo 256), the components are written with
`writeUInt32BE`. -/
def pathBufferOf (path : String) : Except JsError Bytes := do
  let paths := splitPath path
  let nums ← paths.mapM writeUInt32BE
  .ok ((paths.length % 256) :: nums.flatten)

/-- The `while (offset !== rawTx.length)` chunking loop of
`serializeTransactionPayloads`, written with a fuel argument so that it is
structurally recursive (each iteration consumes at least one byte, so
`rawTx.length` fuel always suffices). -/
def chunksFuel : ℕ → Bytes → List Bytes
  | 0, _ => []
  | _ + 1, [] => []
  | fuel + 1, b => b.take 255 :: chunksFuel fuel (b.drop 255)

/-- `serialization.ts` `serializeTransactionPayloads`: successive chunks of at
most `MAX_CHUNK_SIZE = 255` bytes; the loop body never runs on empty input. -/
def serializeTransactionPayloads (rawTx : Bytes) : List Bytes :=
  chunksFuel rawTx.length rawTx

/-- `serialization.ts` `serializeTransactionPayloadsWithDerivationPath`: the
same chunking loop, but the first chunk (when there is one) is prepended with
the inline path buffer; the chunk size is computed from `MAX_CHUNK_SIZE`
alone, without subtracting the path buffer's length. -/
def serializeTransactionPayloadsWithDerivationPath (path : String) (rawTx : Bytes) :
    Except JsError (List Bytes) := do
  let pathBuffer ← pathBufferOf path
  match rawTx with
  | [] => .ok []
  | _ :: _ =>
      .ok ((pathBuffer ++ rawTx.take 255) :: serializeTransactionPayloads (rawTx.drop 255))

theorem chunksFuel_congr :
    ∀ (f₁ f₂ : ℕ) (b : Bytes), b.length ≤ f₁ → b.length ≤ f₂ →
      chunksFuel f₁ b = chunksFuel f₂ b := by
  intro f₁
  induction f₁ with
  | zero =>
      intro f₂ b h₁ _
      have hb : b = [] := List.length_eq_zero.mp (Nat.le_zero.mp h₁)
      subst hb
      cases f₂ <;> rfl
  | succ f ih =>
      intro f₂ b h₁ h₂
      cases b with
      | nil => cases f₂ <;> rfl
      | cons x xs =>
          cases f₂ with
          | zero => exact absurd h₂ (by simp)
          | succ g =>
              simp only [chunksFuel]
              congr 1
              apply ih
              · simp only [List.length_drop, List.length_cons] at *
                omega
              · simp only [List.length_drop, List.length_cons] at *
                omega

theorem serializeTransactionPayloads_nil :
    serializeTransactionPayloads [] = [] := rfl

theorem serializeTransactionPayloads_cons (b : Bytes) (hb : b ≠ []) :
    serializeTransactionPayloads b =
      b.take 255 :: serializeTransactionPayloads (b.drop 255) := by
  cases b with
  | nil => exact absurd rfl hb
  | cons x xs =>
      simp only [serializeTransactionPayloads, List.length_cons, chunksFuel]
      congr 1
      apply chunksFuel_congr
      · simp
      · simp

/-- Reassembling the frames of the plain splitter gives back the input. -/
theorem serializeTransactionPayloads_join (b : Bytes) :
    (serializeTransactionPayloads b).flatten = b := by
  by_cases hb : b = []
  · subst hb; rfl
  · rw [serializeTransactionPayloads_cons b hb, List.flatten_cons,
        serializeTransactionPayloads_join (b.drop 255), List.take_append_drop]
termination_by b.length
decreasing_by
  simp only [List.length_drop]
  have : b.length ≠ 0 := fun h => hb (List.length_eq_zero.mp h)
  omega

theorem serializeTransactionPayloads_frame_le (b : Bytes) :
    ∀ f ∈ serializeTransactionPayloads b, f.length ≤ 255 := by
  by_cases hb : b = []
  · subst hb; intro f hf; simp [serializeTransactionPayloads_nil] at hf
  · rw [serializeTransactionPayloads_cons b hb]
    intro f hf
    rcases List.mem_cons.mp hf with h | h
    · subst h; simp [List.length_take]
    · exact serializeTransactionPayloads_frame_le (b.drop 255) f h
termination_by b.length
decreasing_by
  simp only [List.length_drop]
  have : b.length ≠ 0 := fun h => hb (List.length_eq_zero.mp h)
  omega

theorem serializeTransactionPayloads_frame_ne_nil (b : Bytes) :
    ∀ f ∈ serializeTransactionPayloads b, f ≠ [] := by
  by_cases hb : b = []
  · subst hb; intro f hf; simp [serializeTransactionPayloads_nil] at hf
  · rw [serializeTransactionPayloads_cons b hb]
    intro f hf
    rcases List.mem_cons.mp hf with h | h
    · subst h
      cases b with
      | nil => exact absurd rfl hb
      | cons x xs => simp
    · exact serializeTransactionPayloads_frame_ne_nil (b.drop 255) f h
termination_by b.length
decreasing_by
  simp only [List.length_drop]
  have : b.length ≠ 0 := fun h => hb (List.length_eq_zero.mp h)
  omega

theorem serializeTransactionPayloads_single (b : Bytes) (hb : b ≠ [])
    (hle : b.length ≤ 255) : serializeTransactionPayloads b = [b] := by
  rw [serializeTransactionPayloads_cons b hb]
  have hdrop : b.drop 255 = [] := List.eq_nil_of_length_eq_zero (by simp; omega)
  rw [List.take_of_length_le hle, hdrop, serializeTransactionPayloads_nil]

/-- A transaction: the header fields used by
`serializeAccountTransactionHeader` plus a per-kind payload.
`sender` is the 32-byte buffer `AccountAddress.toBuffer` yields (the
base-58 decoding itself is an external collaborator). -/
structure Txn (α : Type) where
  transactionKind : ℕ
  sender : Bytes
  nonce : ℤ
  energyAmount : ℤ
  expiry : ℤ
  payload : α
deriving DecidableEq

/-- `utils.ts` `serializeAccountTransactionHeader`:
`sender ‖ nonce₆₄ ‖ energy₆₄ ‖ payloadSize₃₂ ‖ expiry₆₄`. -/
def serializeAccountTransactionHeader (txn : Txn α) (payloadSize : ℤ) :
    Except JsError Bytes := do
  let serializedNonce ← encodeWord64 txn.nonce
  let serializedEnergyAmount ← encodeWord64 txn.energyAmount
  let serializedPayloadSize ← encodeWord32 payloadSize
  let serializedExpiry ← encodeWord64 txn.expiry
  .ok (txn.sender ++ serializedNonce ++ serializedEnergyAmount ++
       serializedPayloadSize ++ serializedExpiry)

/-- `utils.ts` `serializeAccountTransaction`:
`header ‖ kindTag ‖ payload`, where the payload bytes come from the
per-kind handler `getAccountTransactionHandler(kind).serialize` (an external
collaborator, passed here as `handlerSerialize`) and the header's size field
is the payload's length plus one.  `Uint8Array.of` stores the kind tag
modulo 256. -/
def serializeAccountTransaction (handlerSerialize : α → Except JsError Bytes)
    (txn : Txn α) : Except JsError Bytes := do
  let serializedType : Bytes := [txn.transactionKind % 256]
  let serializedPayload ← handlerSerialize txn.payload
  let serializedHeader ←
    serializeAccountTransactionHeader txn ((serializedPayload.length : ℤ) + 1)
  .ok (serializedHeader ++ serializedType ++ serializedPayload)

/-- `serialization.ts` `serializeTransaction`: canonical bytes, then the
path-prefixed splitter. -/
def serializeTransaction (handlerSerialize : α → Except JsError Bytes)
    (txn : Txn α) (path : String) : Except JsError (List Bytes) := do
  let txSerialized ← serializeAccountTransaction handlerSerialize txn
  serializeTransactionPayloadsWithDerivationPath path txSerialized

/-- `serializeSimpleTransfer` forwards to `serializeTransaction`. -/
def serializeSimpleTransfer (handlerSerialize : α → Except JsError Bytes)
    (txn : Txn α) (path : String) : Except JsError (List Bytes) :=
  serializeTransaction handlerSerialize txn path

/-- `serializeConfigureDelegation` forwards to `serializeTransaction`. -/
def serializeConfigureDelegation (handlerSerialize : α → Except JsError Bytes)
    (txn : Txn α) (path : String) : Except JsError (List Bytes) :=
  serializeTransaction handlerSerialize txn path

/-- `serializeDeployModule` forwards to `serializeTransaction`. -/
def serializeDeployModule (handlerSerialize : α → Except JsError Bytes)
    (txn : Txn α) (path : String) : Except JsError (List Bytes) :=
  serializeTransaction handlerSerialize txn path

/-- `serializeInitContract` forwards to `serializeTransaction`. -/
def serializeInitContract (handlerSerialize : α → Except JsError Bytes)
    (txn : Txn α) (path : String) : Except JsError (List Bytes) :=
  serializeTransaction handlerSerialize txn path

/-- `serializeUpdateContract` forwards to `serializeTransaction`. -/
def serializeUpdateContract (handlerSerialize : α → Except JsError Bytes)
    (txn : Txn α) (path : String) : Except JsError (List Bytes) :=
  serializeTransaction handlerSerialize txn path

/-- UTF-8 encoding of one character (what `Buffer.from(s, 'utf-8')` emits). -/
def utf8Char (c : Char) : Bytes :=
  let n := c.toNat
  if n < 128 then [n]
  else if n < 2048 then [192 + n / 64, 128 + n % 64]
  else if n < 65536 then [224 + n / 4096, 128 + n / 64 % 64, 128 + n % 64]
  else [240 + n / 262144, 128 + n / 4096 % 64, 128 + n / 64 % 64, 128 + n % 64]

/-- `Buffer.from(s, 'utf-8')`. -/
def utf8Bytes (s : String) : Bytes := (s.data.map utf8Char).flatten

/-- The `memo`/`data` slot of a payload: the caller supplies a string, the
serializers overwrite it in place with a `DataBlob` holding the UTF-8
bytes. -/
inductive MemoField where
  | str (s : String)
  | blob (data : Bytes)
deriving DecidableEq

/-- `SimpleTransferWithMemo` payload (`toAddress` as its 32-byte buffer,
`amount.microCcdAmount` as the `BigInt` it holds). -/
structure MemoPayload where
  toAddress : Bytes
  memo : MemoField
  amountMicroCcd : ℤ
deriving DecidableEq

structure MemoFrames where
  payloadHeaderAddressMemoLength : List Bytes
  payloadsMemo : List Bytes
  payloadsAmount : List Bytes
deriving DecidableEq

/-- `serialization.ts` `serializeSimpleTransferWithMemo`.  The function first
overwrites `txn.payload.memo` with `new DataBlob(Buffer.from(memo, 'utf-8'))`
— a mutation of the caller's object, modelled by returning the updated
transaction alongside the frames.  When `memo` already is a `DataBlob`
(e.g. on a second call), `Buffer.from(memo, 'utf-8')` throws a `TypeError`
before the mutation. -/
def serializeSimpleTransferWithMemo (txn : Txn MemoPayload) (path : String) :
    Txn MemoPayload × Except JsError MemoFrames :=
  match txn.payload.memo with
  | .blob _ => (txn, .error .typeError)
  | .str s =>
      let memoData := utf8Bytes s
      let txn1 : Txn MemoPayload :=
        { txn with payload := { txn.payload with memo := .blob memoData } }
      (txn1, do
        let serializedType : Bytes := [txn.transactionKind % 256]
        let serializedToAddress := txn.payload.toAddress
        let serializedAmount ← encodeWord64 txn.payload.amountMicroCcd
        let serializedMemo ← encodeDataBlob memoData
        let memoLength := serializedMemo.take 2
        let payloadSize := serializedType.length + serializedMemo.length +
          serializedAmount.length + serializedToAddress.length
        let serializedHeader ← serializeAccountTransactionHeader txn (payloadSize : ℤ)
        let serializedHeaderAddressMemoLength :=
          serializedHeader ++ serializedType ++ serializedToAddress ++ memoLength
        let frames ←
          serializeTransactionPayloadsWithDerivationPath path serializedHeaderAddressMemoLength
        .ok { payloadHeaderAddressMemoLength := frames,
              payloadsMemo := serializeTransactionPayloads (serializedMemo.drop 2),
              payloadsAmount := serializeTransactionPayloads serializedAmount })

/-- One `(timestamp, amount)` schedule entry. -/
structure SchedItem where
  timestamp : ℤ
  amount : ℤ
deriving DecidableEq

/-- The per-item `map` body of the schedule serializers:
`encodeWord64(timestamp) ‖ encodeWord64(amount)`. -/
def encodeSchedItem (item : SchedItem) : Except JsError Bytes := do
  let timestampBuffer ← encodeWord64 item.timestamp
  let amountBuffer ← encodeWord64 item.amount
  .ok (timestampBuffer ++ amountBuffer)

structure SchedulePayload where
  toAddress : Bytes
  schedule : List SchedItem
deriving DecidableEq

structure ScheduleFrames where
  payloadHeaderAddressScheduleLength : List Bytes
  payloadsSchedule : List Bytes
deriving DecidableEq

/-- The schedule-chunk `for` loop shared verbatim by
`serializeTransferWithSchedule` and `serializeTransferWithScheduleAndMemo`:
`i` counts pairs in steps of `MAX_SCHEDULE_CHUNK_SIZE = 15` while `i < n`;
each round takes `subarray(i*16, (i+offset)*16)` of the serialized pairs
(`subarray` clamps to the buffer) where `offset` is `remainingPairs` capped
at 15, and `remainingPairs` is reassigned to `n - 15` after every round.
Written with fuel for structural recursion (`n` rounds always suffice). -/
def schedChunksFuel : ℕ → ℕ → Bytes → ℕ → ℤ → List Bytes
  | 0, _, _, _, _ => []
  | fuel + 1, n, sched, i, remainingPairs =>
      if i < n then
        let off : ℤ := if 15 < remainingPairs then 15 else remainingPairs
        let chunk := (sched.drop (i * 16)).take (off * 16).toNat
        serializeTransactionPayloads chunk ++
          schedChunksFuel fuel n sched (i + 15) ((n : ℤ) - 15)
      else []

def schedChunks (n : ℕ) (sched : Bytes) : List Bytes :=
  schedChunksFuel n n sched 0 (n : ℤ)

/-- `serialization.ts` `serializeTransferWithSchedule`. -/
def serializeTransferWithSchedule (txn : Txn SchedulePayload) (path : String) :
    Except JsError ScheduleFrames := do
  let serializedType : Bytes := [txn.transactionKind % 256]
  let toAddressBuffer := txn.payload.toAddress
  let scheduleLength ← encodeInt8 (txn.payload.schedule.length : ℤ)
  let scheduleBuffer ← txn.payload.schedule.mapM encodeSchedItem
  let serializedSchedule := scheduleBuffer.flatten
  let payloadSize := serializedType.length + scheduleLength.length +
    serializedSchedule.length + toAddressBuffer.length
  let serializedHeader ← serializeAccountTransactionHeader txn (payloadSize : ℤ)
  let serializedHeaderAddressScheduleLength :=
    serializedHeader ++ serializedType ++ toAddressBuffer ++ scheduleLength
  let frames ←
    serializeTransactionPayloadsWithDerivationPath path serializedHeaderAddressScheduleLength
  .ok { payloadHeaderAddressScheduleLength := frames,
        payloadsSchedule := schedChunks txn.payload.schedule.length serializedSchedule }

structure ScheduleMemoPayload where
  toAddress : Bytes
  schedule : List SchedItem
  memo : MemoField
deriving DecidableEq

structure ScheduleMemoFrames where
  payloadHeaderAddressScheduleLengthAndMemoLength : List Bytes
  payloadMemo : List Bytes
  payloadsSchedule : List Bytes
deriving DecidableEq

/-- `serialization.ts` `serializeTransferWithScheduleAndMemo` (same memo
mutation as `serializeSimpleTransferWithMemo`, same chunk loop as
`serializeTransferWithSchedule`). -/
def serializeTransferWithScheduleAndMemo (txn : Txn ScheduleMemoPayload) (path : String) :
    Txn ScheduleMemoPayload × Except JsError ScheduleMemoFrames :=
  match txn.payload.memo with
  | .blob _ => (txn, .error .typeError)
  | .str s =>
      let memoData := utf8Bytes s
      let txn1 : Txn ScheduleMemoPayload :=
        { txn with payload := { txn.payload with memo := .blob memoData } }
      (txn1, do
        let toAddressBuffer := txn.payload.toAddress
        let scheduleLength ← encodeInt8 (txn.payload.schedule.length : ℤ)
        let scheduleBufferArray ← txn.payload.schedule.mapM encodeSchedItem
        let serializedSchedule := scheduleBufferArray.flatten
        let serializedMemo ← encodeDataBlob memoData
        let serializedType : Bytes := [txn.transactionKind % 256]
        let payloadSize := serializedType.length + scheduleLength.length +
          serializedSchedule.length + toAddressBuffer.length + serializedMemo.length
        let serializedHeader ← serializeAccountTransactionHeader txn (payloadSize : ℤ)
        let base := serializedHeader ++ serializedType ++ toAddressBuffer ++
          scheduleLength ++ serializedMemo.take 2
        let frames ← serializeTransactionPayloadsWithDerivationPath path base
        .ok { payloadHeaderAddressScheduleLengthAndMemoLength := frames,
              payloadMemo := serializeTransactionPayloads (serializedMemo.drop 2),
              payloadsSchedule := schedChunks txn.payload.schedule.length serializedSchedule })

/-- `RegisterData` payload. -/
structure RegisterDataPayload where
  data : MemoField
deriving DecidableEq

structure RegisterDataFrames where
  payloadHeader : List Bytes
  payloadsData : List Bytes
deriving DecidableEq

/-- `serialization.ts` `serializeRegisterData` (mutates `txn.payload.data`
into a `DataBlob`, like the memo serializers). -/
def serializeRegisterData (txn : Txn RegisterDataPayload) (path : String) :
    Txn RegisterDataPayload × Except JsError RegisterDataFrames :=
  match txn.payload.data with
  | .blob _ => (txn, .error .typeError)
  | .str s =>
      let dataBytes := utf8Bytes s
      let txn1 : Txn RegisterDataPayload :=
        { txn with payload := { data := .blob dataBytes } }
      (txn1, do
        let serializedData ← encodeDataBlob dataBytes
        let serializedType : Bytes := [txn.transactionKind % 256]
        let payloadSize := serializedType.length + serializedData.length
        let serializedHeader ← serializeAccountTransactionHeader txn (payloadSize : ℤ)
        let serializedHeaderAndKind :=
          serializedHeader ++ serializedType ++ serializedData.take 2
        let frames ← serializeTransactionPayloadsWithDerivationPath path serializedHeaderAndKind
        .ok { payloadHeader := frames,
              payloadsData := serializeTransactionPayloads (serializedData.drop 2) })

/-- `TransferToPublic` payload: `remainingAmount` and `proofs` are kept as
the bytes their hex strings decode to. -/
structure ToPublicPayload where
  remainingAmount : Bytes
  transferAmountMicroCcd : ℤ
  index : ℤ
  proofs : Bytes
deriving DecidableEq

structure ToPublicFrames where
  payloadHeader : List Bytes
  payloadsAmountAndProofsLength : List Bytes
  payloadsProofs : List Bytes
deriving DecidableEq

/-- `serialization.ts` `serializeTransferToPublic`. -/
def serializeTransferToPublic (txn : Txn ToPublicPayload) (path : String) :
    Except JsError ToPublicFrames := do
  let remainingAmount := txn.payload.remainingAmount
  let transferAmount ← encodeWord64 txn.payload.transferAmountMicroCcd
  let index ← encodeWord64 txn.payload.index
  let proofs := txn.payload.proofs
  let proofsLength ← encodeWord16 (proofs.length : ℤ)
  let serializedType : Bytes := [txn.transactionKind % 256]
  let payloadSize := remainingAmount.length + transferAmount.length +
    index.length + proofsLength.length + proofs.length + serializedType.length
  let serializedHeader ← serializeAccountTransactionHeader txn (payloadSize : ℤ)
  let serializedHeaderAndKind := serializedHeader ++ serializedType
  let serializedAmountAndProofsLength :=
    remainingAmount ++ transferAmount ++ index ++ proofsLength
  let payloadHeader ←
    serializeTransactionPayloadsWithDerivationPath path serializedHeaderAndKind
  .ok { payloadHeader := payloadHeader,
        payloadsAmountAndProofsLength :=
          serializeTransactionPayloads serializedAmountAndProofsLength,
        payloadsProofs := serializeTransactionPayloads proofs }

/-- `ConfigureBaker` payload: each optional sub-field present exactly when
the corresponding property exists on the JavaScript object
(`hasOwnProperty`). -/
structure ConfigureBakerPayload where
  stake : Option ℕ
  restakeEarnings : Option Bool
  openForDelegation : Option ℕ
  keys : Option Bytes
  metadataUrl : Option Bytes
  transactionFeeCommission : Option ℕ
  bakingRewardCommission : Option ℕ
  finalizationRewardCommission : Option ℕ
deriving DecidableEq

def optBytes : Option α → (α → Bytes) → Bytes
  | none, _ => []
  | some a, f => f a

/-- Modelled from the spec: the 16-bit presence bitmap of the canonical
configure-baker payload, one bit per optional field in canonical order
(stake, restakeEarnings, openForDelegation, keys, metadataUrl,
transactionFeeCommission, bakingRewardCommission,
finalizationRewardCommission). -/
def configureBakerBitmap (p : ConfigureBakerPayload) : ℕ :=
  (if p.stake.isSome then 1 else 0) +
  (if p.restakeEarnings.isSome then 2 else 0) +
  (if p.openForDelegation.isSome then 4 else 0) +
  (if p.keys.isSome then 8 else 0) +
  (if p.metadataUrl.isSome then 16 else 0) +
  (if p.transactionFeeCommission.isSome then 32 else 0) +
  (if p.bakingRewardCommission.isSome then 64 else 0) +
  (if p.finalizationRewardCommission.isSome then 128 else 0)

/-- Modelled from the spec: the canonical configure-baker payload serializer.
The real function is `getAccountTransactionHandler(kind).serialize` from
`@concordium/web-sdk` and is not part of `src/`; spec §4.2/§3 specify it as
"a 16-bit bitmap is written first; each optional field is present in the
byte stream if and only if its assigned bit is set, and fields appear in a
fixed canonical order regardless of which are absent", with field widths
stake 8 (64-bit amount), restakeEarnings 1, openForDelegation 1, keys 352,
metadataUrl 2-byte length + bytes, and each commission rate 4. -/
def configureBakerHandlerSpec (p : ConfigureBakerPayload) : Except JsError Bytes :=
  .ok (beBytes 2 (configureBakerBitmap p) ++
       optBytes p.stake (fun v => beBytes 8 (v % 18446744073709551616)) ++
       optBytes p.restakeEarnings (fun b => [if b then 1 else 0]) ++
       optBytes p.openForDelegation (fun v => [v % 256]) ++
       optBytes p.keys id ++
       optBytes p.metadataUrl (fun u => beBytes 2 (u.length % 65536) ++ u) ++
       optBytes p.transactionFeeCommission (fun v => beBytes 4 (v % 4294967296)) ++
       optBytes p.bakingRewardCommission (fun v => beBytes 4 (v % 4294967296)) ++
       optBytes p.finalizationRewardCommission (fun v => beBytes 4 (v % 4294967296)))

structure ConfigureBakerFrames where
  payloadHeaderKindAndBitmap : Bytes
  payloadFirstBatch : Bytes
  payloadAggregationKeys : Bytes
  payloadUrlLength : Bytes
  payloadURL : Bytes
  payloadCommissionFee : Bytes
deriving DecidableEq

/-- `serialization.ts` `serializeConfigureBaker`: serializes the whole
transaction, then re-slices the canonical bytes by replaying the presence
logic (`hasOwnProperty` per optional field) at fixed offsets:
header+kind+bitmap is `0..63`, then stake 8, restakeEarnings 1,
openForDelegation 1, keys 352 (split 192/160), metadataUrl 2 + its 16-bit
length's worth of URL bytes, and the three 4-byte commissions.
`payloadHeaderKindAndBitmap` is the JavaScript `payloads[0]` (the slice is
63 bytes, so the splitter always yields exactly one frame; `headD` renders
the `[0]` index). -/
def serializeConfigureBaker (txn : Txn ConfigureBakerPayload) (path : String) :
    Except JsError ConfigureBakerFrames := do
  let txSerialized ← serializeAccountTransaction configureBakerHandlerSpec txn
  let headerKindAndBitmap := txSerialized.take 63
  let offset := 63
  let (stake, offset) :=
    if txn.payload.stake.isSome then (subarrayLen txSerialized offset 8, offset + 8)
    else ([], offset)
  let (restakeEarnings, offset) :=
    if txn.payload.restakeEarnings.isSome then (subarrayLen txSerialized offset 1, offset + 1)
    else ([], offset)
  let (openForDelegation, offset) :=
    if txn.payload.openForDelegation.isSome then (subarrayLen txSerialized offset 1, offset + 1)
    else ([], offset)
  let (keys, offset) :=
    if txn.payload.keys.isSome then (subarrayLen txSerialized offset 352, offset + 352)
    else ([], offset)
  let (metadataUrl, url, offset) ←
    if txn.payload.metadataUrl.isSome then do
      let metadataUrl := subarrayLen txSerialized offset 2
      let urlLen ← readUInt16BE metadataUrl
      pure (metadataUrl, subarrayLen txSerialized (offset + 2) urlLen, offset + 2 + urlLen)
    else pure (([] : Bytes), ([] : Bytes), offset)
  let (transactionFeeCommission, offset) :=
    if txn.payload.transactionFeeCommission.isSome then
      (subarrayLen txSerialized offset 4, offset + 4)
    else ([], offset)
  let (bakingRewardCommission, offset) :=
    if txn.payload.bakingRewardCommission.isSome then
      (subarrayLen txSerialized offset 4, offset + 4)
    else ([], offset)
  let (finalizationRewardCommission, _offset) :=
    if txn.payload.finalizationRewardCommission.isSome then
      (subarrayLen txSerialized offset 4, offset + 4)
    else ([], offset)
  let payloadHeaderKindAndBitmap ←
    serializeTransactionPayloadsWithDerivationPath path headerKindAndBitmap
  .ok { payloadHeaderKindAndBitmap := payloadHeaderKindAndBitmap.headD [],
        payloadFirstBatch :=
          stake ++ restakeEarnings ++ openForDelegation ++ keys.take 192,
        payloadAggregationKeys := keys.drop 192,
        payloadUrlLength := metadataUrl,
        payloadURL := url,
        payloadCommissionFee :=
          transactionFeeCommission ++ bakingRewardCommission ++ finalizationRewardCommission }

/-- One entry of `txn.payload.newCredentials`: the staged dispatcher only
consumes `Object.keys(cdi.policy.revealedAttributes).length`, modelled as
that count. -/
structure NewCredential where
  revealedAttributeCount : ℕ
deriving DecidableEq

structure UpdateCredentialsPayload where
  newCredentials : List NewCredential
  removeCredentialIds : List Bytes
deriving DecidableEq

/-- The per-credential slices `serializeUpdateCredentials` accumulates. -/
structure CredSlice where
  credentialIndex : Bytes
  numberOfVerificationKeys : Bytes
  keyIndexAndSchemeAndVerificationKey : Bytes
  thresholdAndRegIdAndIPIdentity : Bytes
  encIdCredPubShareAndKey : Bytes
  validToAndCreatedAtAndAttributesLength : Bytes
  attributesLength : Bytes
  tag : List Bytes
  valueLength : List Bytes
  value : List Bytes
  proofLength : Bytes
  proofs : Bytes
deriving DecidableEq

/-- The inner `for (j < attributesLength[i].readUInt16BE(0))` loop of
`serializeUpdateCredentials`: per revealed attribute, a 1-byte tag, a 1-byte
value length and that many value bytes. -/
def ucAttrLoop (txS : Bytes) :
    ℕ → ℕ → Except JsError (List Bytes × List Bytes × List Bytes × ℕ)
  | 0, offset => .ok ([], [], [], offset)
  | count + 1, offset => do
      let tagB := subarrayLen txS offset 1
      let offset := offset + 1
      let valueLengthB := subarrayLen txS offset 1
      let offset := offset + 1
      let vl ← readUInt8 valueLengthB
      let valueB := subarrayLen txS offset vl
      let offset := offset + vl
      let (tags, valueLengths, values, offset) ← ucAttrLoop txS count offset
      .ok (tagB :: tags, valueLengthB :: valueLengths, valueB :: values, offset)

/-- The outer `for (i < txn.payload.newCredentials.length)` loop of
`serializeUpdateCredentials`, with the source's fixed widths
(`2*ONE_OCTET+KEY = 34`, `2*ONE_OCTET+REG_ID+IP_IDENTITY+AR_DATA = 56`,
`4*ONE_OCTET+ID_CRED_PUB_SHARE = 100`,
`ATTRIBUTES+VALID_TO+CREATED_AT = 8`); `attributesLength[i]` is
`subarray(-2)`, i.e. the slice's last two bytes. -/
def ucCredLoop (txS : Bytes) : ℕ → ℕ → Except JsError (List CredSlice × ℕ)
  | 0, offset => .ok ([], offset)
  | count + 1, offset => do
      let credentialIndex := subarrayLen txS offset 1
      let offset := offset + 1
      let numberOfVerificationKeys := subarrayLen txS offset 1
      let offset := offset + 1
      let keyIndexAndSchemeAndVerificationKey := subarrayLen txS offset 34
      let offset := offset + 34
      let thresholdAndRegIdAndIPIdentity := subarrayLen txS offset 56
      let offset := offset + 56
      let encIdCredPubShareAndKey := subarrayLen txS offset 100
      let offset := offset + 100
      let validToAndCreatedAtAndAttributesLength := subarrayLen txS offset 8
      let offset := offset + 8
      let attributesLength := validToAndCreatedAtAndAttributesLength.drop
        (validToAndCreatedAtAndAttributesLength.length - 2)
      let nAttr ← readUInt16BE attributesLength
      let (tag, valueLength, value, offset) ← ucAttrLoop txS nAttr offset
      let proofLength := subarrayLen txS offset 4
      let offset := offset + 4
      let pl ← readUInt32BE proofLength
      let proofs := subarrayLen txS offset pl
      let offset := offset + pl
      let (rest, offset) ← ucCredLoop txS count offset
      .ok ({ credentialIndex, numberOfVerificationKeys,
             keyIndexAndSchemeAndVerificationKey, thresholdAndRegIdAndIPIdentity,
             encIdCredPubShareAndKey, validToAndCreatedAtAndAttributesLength,
             attributesLength, tag, valueLength, value, proofLength,
             proofs } :: rest, offset)

/-- The `for (i < credentialIdCount.readUInt8(0))` loop: one 48-byte
credential id per round. -/
def ucIdLoop (txS : Bytes) : ℕ → ℕ → List Bytes × ℕ
  | 0, offset => ([], offset)
  | count + 1, offset =>
      let idB := subarrayLen txS offset 48
      let (rest, offsetEnd) := ucIdLoop txS count (offset + 48)
      (idB :: rest, offsetEnd)

structure UpdateCredentialsFrames where
  payloadHeaderKindAndIndexLength : List Bytes
  credentialIndex : List Bytes
  numberOfVerificationKeys : List Bytes
  keyIndexAndSchemeAndVerificationKey : List Bytes
  thresholdAndRegIdAndIPIdentity : List Bytes
  encIdCredPubShareAndKey : List Bytes
  validToAndCreatedAtAndAttributesLength : List Bytes
  attributesLength : List Bytes
  tag : List (List Bytes)
  valueLength : List (List Bytes)
  value : List (List Bytes)
  proofLength : List Bytes
  proofs : List Bytes
  credentialIdCount : Bytes
  credentialIds : List Bytes
  threshold : Bytes
deriving DecidableEq

/-- `serialization.ts` `serializeUpdateCredentials`: serializes the whole
transaction (the update-credentials payload handler is external, passed as
`handlerSerialize`), then re-slices the canonical bytes at the staged
offsets.  The JavaScript seeds `tag`/`valueLength`/`value` with `[[]]`;
every element the loop writes overwrites those seeds, so the seed is only
observable when `newCredentials` is empty, where none of these arrays is
read — the model uses the loop-built lists. -/
def serializeUpdateCredentials
    (handlerSerialize : UpdateCredentialsPayload → Except JsError Bytes)
    (txn : Txn UpdateCredentialsPayload) (path : String) :
    Except JsError UpdateCredentialsFrames := do
  let txSerialized ← serializeAccountTransaction handlerSerialize txn
  let headerKindAndIndexLength := txSerialized.take 62
  let payloadHeaderKindAndIndexLength ←
    serializeTransactionPayloadsWithDerivationPath path headerKindAndIndexLength
  let offset := 62
  let (creds, offset) ← ucCredLoop txSerialized txn.payload.newCredentials.length offset
  let credentialIdCount := subarrayLen txSerialized offset 1
  let offset := offset + 1
  let cnt ← readUInt8 credentialIdCount
  let (credentialIds, offset) := ucIdLoop txSerialized cnt offset
  let threshold := subarrayLen txSerialized offset 1
  .ok { payloadHeaderKindAndIndexLength := payloadHeaderKindAndIndexLength,
        credentialIndex := creds.map CredSlice.credentialIndex,
        numberOfVerificationKeys := creds.map CredSlice.numberOfVerificationKeys,
        keyIndexAndSchemeAndVerificationKey :=
          creds.map CredSlice.keyIndexAndSchemeAndVerificationKey,
        thresholdAndRegIdAndIPIdentity :=
          creds.map CredSlice.thresholdAndRegIdAndIPIdentity,
        encIdCredPubShareAndKey := creds.map CredSlice.encIdCredPubShareAndKey,
        validToAndCreatedAtAndAttributesLength :=
          creds.map CredSlice.validToAndCreatedAtAndAttributesLength,
        attributesLength := creds.map CredSlice.attributesLength,
        tag := creds.map CredSlice.tag,
        valueLength := creds.map CredSlice.valueLength,
        value := creds.map CredSlice.value,
        proofLength := creds.map CredSlice.proofLength,
        proofs := creds.map CredSlice.proofs,
        credentialIdCount := credentialIdCount,
        credentialIds := credentialIds,
        threshold := threshold }

/-- The device boundary: the (status-stripped) reply `sendToDevice` returns
for the k-th command of one signing call.  Replies are arbitrary — the
dispatcher discards every reply except the last. -/
abbrev Device := ℕ → Bytes

/-- One `await this.sendToDevice(...)` call: the running send counter is
advanced and `response` is overwritten with this send's reply (the frame
itself does not influence the modelled reply). -/
def sendOne (device : Device) (st : ℕ × Bytes) (_frame : Bytes) : ℕ × Bytes :=
  (st.1 + 1, device st.1)

/-- A `for`-loop of sends (`response` keeps only the last reply). -/
def sendAll (device : Device) (st : ℕ × Bytes) (frames : List Bytes) : ℕ × Bytes :=
  frames.foldl (sendOne device) st

/-- JavaScript `frames[0]` passed to the transport: an out-of-range index
gives `undefined`, which the transport rejects. -/
def frameAt (frames : List Bytes) : Except JsError Bytes :=
  match frames with
  | f :: _ => .ok f
  | [] => .error .typeError

/-- JavaScript `xs[i]` passed to the transport (or to `Buffer.concat`). -/
def jsIdx (xs : List α) (i : ℕ) : Except JsError α :=
  match xs.get? i with
  | some x => .ok x
  | none => .error .typeError

/-- The common tail of every sign method:
`if (response.length === 1) throw new Error("User has declined."); return signature`. -/
def finalizeSign (run : Except JsError (ℕ × Bytes)) : Except JsError Bytes := do
  let st ← run
  if st.2.length = 1 then .error .userDeclined else .ok st.2

/-- `Concordium.ts` `signTransfer`'s send sequence: every frame of the
path-prefixed split, in order. -/
def signTransferRun (handlerSerialize : α → Except JsError Bytes) (txn : Txn α)
    (path : String) (device : Device) : Except JsError (ℕ × Bytes) := do
  let payloads ← serializeSimpleTransfer handlerSerialize txn path
  .ok (sendAll device (0, []) payloads)

/-- `Concordium.ts` `signTransfer`. -/
def signTransfer (handlerSerialize : α → Except JsError Bytes) (txn : Txn α)
    (path : String) (device : Device) : Except JsError Bytes :=
  finalizeSign (signTransferRun handlerSerialize txn path device)

/-- `Concordium.ts` `signConfigureDelegation` (same streaming shape). -/
def signConfigureDelegationRun (handlerSerialize : α → Except JsError Bytes)
    (txn : Txn α) (path : String) (device : Device) : Except JsError (ℕ × Bytes) := do
  let payloads ← serializeConfigureDelegation handlerSerialize txn path
  .ok (sendAll device (0, []) payloads)

def signConfigureDelegation (handlerSerialize : α → Except JsError Bytes)
    (txn : Txn α) (path : String) (device : Device) : Except JsError Bytes :=
  finalizeSign (signConfigureDelegationRun handlerSerialize txn path device)

/-- `Concordium.ts` `signDeployModule` (same streaming shape; also the shape
of `signInitContract`/`signUpdateContract`). -/
def signDeployModuleRun (handlerSerialize : α → Except JsError Bytes)
    (txn : Txn α) (path : String) (device : Device) : Except JsError (ℕ × Bytes) := do
  let payloads ← serializeDeployModule handlerSerialize txn path
  .ok (sendAll device (0, []) payloads)

def signDeployModule (handlerSerialize : α → Except JsError Bytes)
    (txn : Txn α) (path : String) (device : Device) : Except JsError Bytes :=
  finalizeSign (signDeployModuleRun handlerSerialize txn path device)

/-- `Concordium.ts` `signTransferWithMemo`: exactly three sends — initial
frame, memo frame 0, amount frame 0. -/
def signTransferWithMemoRun (txn : Txn MemoPayload) (path : String)
    (device : Device) : Except JsError (ℕ × Bytes) := do
  let out ← (serializeSimpleTransferWithMemo txn path).2
  let st := sendOne device (0, []) (← frameAt out.payloadHeaderAddressMemoLength)
  let st := sendOne device st (← frameAt out.payloadsMemo)
  let st := sendOne device st (← frameAt out.payloadsAmount)
  .ok st

def signTransferWithMemo (txn : Txn MemoPayload) (path : String)
    (device : Device) : Except JsError Bytes :=
  finalizeSign (signTransferWithMemoRun txn path device)

/-- `Concordium.ts` `signTransferWithSchedule`: initial frame, then every
schedule frame. -/
def signTransferWithScheduleRun (txn : Txn SchedulePayload) (path : String)
    (device : Device) : Except JsError (ℕ × Bytes) := do
  let out ← serializeTransferWithSchedule txn path
  let st := sendOne device (0, []) (← frameAt out.payloadHeaderAddressScheduleLength)
  .ok (sendAll device st out.payloadsSchedule)

def signTransferWithSchedule (txn : Txn SchedulePayload) (path : String)
    (device : Device) : Except JsError Bytes :=
  finalizeSign (signTransferWithScheduleRun txn path device)

/-- `Concordium.ts` `signTransferWithScheduleAndMemo`: initial frame, memo
frame 0, then every schedule frame. -/
def signTransferWithScheduleAndMemoRun (txn : Txn ScheduleMemoPayload)
    (path : String) (device : Device) : Except JsError (ℕ × Bytes) := do
  let out ← (serializeTransferWithScheduleAndMemo txn path).2
  let st := sendOne device (0, [])
    (← frameAt out.payloadHeaderAddressScheduleLengthAndMemoLength)
  let st := sendOne device st (← frameAt out.payloadMemo)
  .ok (sendAll device st out.payloadsSchedule)

def signTransferWithScheduleAndMemo (txn : Txn ScheduleMemoPayload)
    (path : String) (device : Device) : Except JsError Bytes :=
  finalizeSign (signTransferWithScheduleAndMemoRun txn path device)

/-- `Concordium.ts` `signConfigureBaker`: six sends with the six sliced
payload pieces. -/
def signConfigureBakerRun (txn : Txn ConfigureBakerPayload) (path : String)
    (device : Device) : Except JsError (ℕ × Bytes) := do
  let out ← serializeConfigureBaker txn path
  let st := sendOne device (0, []) out.payloadHeaderKindAndBitmap
  let st := sendOne device st out.payloadFirstBatch
  let st := sendOne device st out.payloadAggregationKeys
  let st := sendOne device st out.payloadUrlLength
  let st := sendOne device st out.payloadURL
  let st := sendOne device st out.payloadCommissionFee
  .ok st

def signConfigureBaker (txn : Txn ConfigureBakerPayload) (path : String)
    (device : Device) : Except JsError Bytes :=
  finalizeSign (signConfigureBakerRun txn path device)

/-- `Concordium.ts` `signRegisterData`: initial frame, then every data
frame. -/
def signRegisterDataRun (txn : Txn RegisterDataPayload) (path : String)
    (device : Device) : Except JsError (ℕ × Bytes) := do
  let out ← (serializeRegisterData txn path).2
  let st := sendOne device (0, []) (← frameAt out.payloadHeader)
  .ok (sendAll device st out.payloadsData)

def signRegisterData (txn : Txn RegisterDataPayload) (path : String)
    (device : Device) : Except JsError Bytes :=
  finalizeSign (signRegisterDataRun txn path device)

/-- `Concordium.ts` `signTransferToPublic`: initial frame, amount frame 0,
then every proof frame. -/
def signTransferToPublicRun (txn : Txn ToPublicPayload) (path : String)
    (device : Device) : Except JsError (ℕ × Bytes) := do
  let out ← serializeTransferToPublic txn path
  let st := sendOne device (0, []) (← frameAt out.payloadHeader)
  let st := sendOne device st (← frameAt out.payloadsAmountAndProofsLength)
  .ok (sendAll device st out.payloadsProofs)

def signTransferToPublic (txn : Txn ToPublicPayload) (path : String)
    (device : Device) : Except JsError Bytes :=
  finalizeSign (signTransferToPublicRun txn path device)

/-- The revealed-attribute send loop of `signUpdateCredentials`
(`tag[i][j] ‖ valueLength[i][j]` then `value[i][j]`). -/
def ucSendAttrLoop (device : Device) (out : UpdateCredentialsFrames) (i : ℕ) :
    ℕ → ℕ → (ℕ × Bytes) → Except JsError (ℕ × Bytes)
  | 0, _, st => .ok st
  | count + 1, j, st => do
      let tagB ← jsIdx (← jsIdx out.tag i) j
      let vlB ← jsIdx (← jsIdx out.valueLength i) j
      let st := sendOne device st (tagB ++ vlB)
      let st := sendOne device st (← jsIdx (← jsIdx out.value i) j)
      ucSendAttrLoop device out i count (j + 1) st

/-- The per-new-credential send loop of `signUpdateCredentials`. -/
def ucSendCredLoop (device : Device) (out : UpdateCredentialsFrames) :
    List NewCredential → ℕ → (ℕ × Bytes) → Except JsError (ℕ × Bytes)
  | [], _, st => .ok st
  | cred :: rest, i, st => do
      let st := sendOne device st (← jsIdx out.credentialIndex i)
      let st := sendOne device st (← jsIdx out.numberOfVerificationKeys i)
      let st := sendOne device st (← jsIdx out.keyIndexAndSchemeAndVerificationKey i)
      let st := sendOne device st (← jsIdx out.thresholdAndRegIdAndIPIdentity i)
      let st := sendOne device st (← jsIdx out.encIdCredPubShareAndKey i)
      let st := sendOne device st (← jsIdx out.validToAndCreatedAtAndAttributesLength i)
      let st ← ucSendAttrLoop device out i cred.revealedAttributeCount 0 st
      let st := sendOne device st (← jsIdx out.proofLength i)
      let proofPayload := serializeTransactionPayloads (← jsIdx out.proofs i)
      let st := sendAll device st proofPayload
      ucSendCredLoop device out rest (i + 1) st

/-- The removed-credential-id send loop of `signUpdateCredentials`. -/
def ucSendIdLoop (device : Device) (out : UpdateCredentialsFrames) :
    List Bytes → ℕ → (ℕ × Bytes) → Except JsError (ℕ × Bytes)
  | [], _, st => .ok st
  | _ :: rest, i, st => do
      let st := sendOne device st (← jsIdx out.credentialIds i)
      ucSendIdLoop device out rest (i + 1) st

/-- `Concordium.ts` `signUpdateCredentials`: initial frame, the
per-credential loop, the id count, one send per removed id, and finally the
threshold — the terminal stage for every input. -/
def signUpdateCredentialsRun
    (handlerSerialize : UpdateCredentialsPayload → Except JsError Bytes)
    (txn : Txn UpdateCredentialsPayload) (path : String) (device : Device) :
    Except JsError (ℕ × Bytes) := do
  let out ← serializeUpdateCredentials handlerSerialize txn path
  let st := sendOne device (0, []) (← frameAt out.payloadHeaderKindAndIndexLength)
  let st ← ucSendCredLoop device out txn.payload.newCredentials 0 st
  let st := sendOne device st out.credentialIdCount
  let st ← ucSendIdLoop device out txn.payload.removeCredentialIds 0 st
  let st := sendOne device st out.threshold
  .ok st

def signUpdateCredentials
    (handlerSerialize : UpdateCredentialsPayload → Except JsError Bytes)
    (txn : Txn UpdateCredentialsPayload) (path : String) (device : Device) :
    Except JsError Bytes :=
  finalizeSign (signUpdateCredentialsRun handlerSerialize txn path device)

theorem bindOk {e : Except JsError α} {f : α → Except JsError β} {b : β} :
    (e >>= f) = .ok b ↔ ∃ a, e = .ok a ∧ f a = .ok b := by
  cases e <;> simp [Bind.bind, Except.bind]

/-- Concatenate frames after removing `k` path-prefix bytes from the first
frame (the reassembly the round-trip law talks about). -/
def dropPrefixFlatten (k : ℕ) (frames : List Bytes) : Bytes :=
  match frames with
  | [] => []
  | f :: rest => f.drop k ++ rest.flatten

theorem withPath_nil {path : String} {pb : Bytes}
    (h : pathBufferOf path = .ok pb) :
    serializeTransactionPayloadsWithDerivationPath path [] = .ok [] := by
  simp [serializeTransactionPayloadsWithDerivationPath, h, Bind.bind, Except.bind]

theorem withPath_cons {path : String} {pb : Bytes} (x : ℕ) (xs : Bytes)
    (h : pathBufferOf path = .ok pb) :
    serializeTransactionPayloadsWithDerivationPath path (x :: xs) =
      .ok ((pb ++ (x :: xs).take 255) ::
        serializeTransactionPayloads ((x :: xs).drop 255)) := by
  simp [serializeTransactionPayloadsWithDerivationPath, h, Bind.bind, Except.bind]

theorem withPath_ok_inv {path : String} {rawTx : Bytes} {frames : List Bytes}
    (h : serializeTransactionPayloadsWithDerivationPath path rawTx = .ok frames) :
    ∃ pb, pathBufferOf path = .ok pb ∧
      ((rawTx = [] ∧ frames = []) ∨
       (rawTx ≠ [] ∧ frames = (pb ++ rawTx.take 255) ::
          serializeTransactionPayloads (rawTx.drop 255))) := by
  rcases hpb : pathBufferOf path with e | pb
  · rw [serializeTransactionPayloadsWithDerivationPath, hpb] at h
    simp [Bind.bind, Except.bind] at h
  · refine ⟨pb, rfl, ?_⟩
    cases rawTx with
    | nil =>
        rw [withPath_nil hpb] at h
        cases h
        exact Or.inl ⟨rfl, rfl⟩
    | cons x xs =>
        rw [withPath_cons x xs hpb] at h
        cases h
        exact Or.inr ⟨by simp, rfl⟩

theorem withPath_rejoin_aux {path : String} {rawTx pb : Bytes} {frames : List Bytes}
    (hpb : pathBufferOf path = .ok pb)
    (hfr : serializeTransactionPayloadsWithDerivationPath path rawTx = .ok frames) :
    dropPrefixFlatten pb.length frames = rawTx := by
  cases rawTx with
  | nil =>
      rw [withPath_nil hpb] at hfr
      cases hfr
      rfl
  | cons x xs =>
      rw [withPath_cons x xs hpb] at hfr
      cases hfr
      simp only [dropPrefixFlatten, List.drop_left, serializeTransactionPayloads_join]
      exact List.take_append_drop 255 (x :: xs)

theorem withPath_frames_tail_le {path : String} {rawTx : Bytes} {frames : List Bytes}
    (hfr : serializeTransactionPayloadsWithDerivationPath path rawTx = .ok frames) :
    ∀ f ∈ frames.tail, f.length ≤ 255 := by
  obtain ⟨pb, -, hf | hf⟩ := withPath_ok_inv hfr
  · rw [hf.2]; intro f hmem; simp at hmem
  · rw [hf.2]
    intro f hmem
    exact serializeTransactionPayloads_frame_le _ f hmem

theorem withPath_first_frame {path : String} {rawTx pb : Bytes} {frames : List Bytes}
    (hpb : pathBufferOf path = .ok pb)
    (hfr : serializeTransactionPayloadsWithDerivationPath path rawTx = .ok frames)
    (hne : rawTx ≠ []) :
    frames.head? = some (pb ++ rawTx.take 255) := by
  cases rawTx with
  | nil => exact absurd rfl hne
  | cons x xs =>
      rw [withPath_cons x xs hpb] at hfr
      cases hfr
      rfl

theorem encodeWord64_ok_length {v : ℤ} {b : Bytes} (h : encodeWord64 v = .ok b) :
    b.length = 8 := by
  unfold encodeWord64 at h
  split at h
  · cases h
  · cases h; exact beBytes_length _ _

theorem encodeWord16_ok_inv {v : ℤ} {b : Bytes} (h : encodeWord16 v = .ok b) :
    b = beBytes 2 (v % 65536).toNat ∧ v ≤ 65535 ∧ 0 ≤ v := by
  unfold encodeWord16 at h
  split at h
  · cases h
  · cases h
    next hcond => exact ⟨rfl, by omega, by omega⟩

theorem encodeWord32_ok_nat {k : ℕ} {b : Bytes} (h : encodeWord32 (k : ℤ) = .ok b) :
    b = beBytes 4 k := by
  unfold encodeWord32 at h
  split at h
  · cases h
  · cases h
    next hcond =>
      have hk : ((k : ℤ) % 4294967296).toNat = k := by omega
      rw [hk]

theorem encodeInt8_ok_length {v : ℤ} {b : Bytes} (h : encodeInt8 v = .ok b) :
    b.length = 1 := by
  unfold encodeInt8 at h
  split at h
  · cases h
  · cases h; exact beBytes_length _ _

theorem encodeDataBlob_ok_inv {d b : Bytes} (h : encodeDataBlob d = .ok b) :
    b = beBytes 2 ((d.length : ℤ) % 65536).toNat ++ d ∧ d.length ≤ 65535 := by
  unfold encodeDataBlob at h
  rw [bindOk] at h
  obtain ⟨len, hlen, hb⟩ := h
  obtain ⟨hb2, hle, -⟩ := encodeWord16_ok_inv hlen
  cases hb
  exact ⟨by rw [hb2], by exact_mod_cast hle⟩

theorem encodeDataBlob_take_drop {d b : Bytes} (h : encodeDataBlob d = .ok b) :
    b.take 2 = beBytes 2 ((d.length : ℤ) % 65536).toNat ∧ b.drop 2 = d ∧
      b.length = 2 + d.length := by
  obtain ⟨hb, -⟩ := encodeDataBlob_ok_inv h
  subst hb
  have h2 : (beBytes 2 ((d.length : ℤ) % 65536).toNat).length = 2 := beBytes_length _ _
  refine ⟨?_, ?_, ?_⟩
  · rw [← h2]; exact List.take_left _ _
  · rw [show (2 : ℕ) = (beBytes 2 ((d.length : ℤ) % 65536).toNat).length from h2.symm]
    exact List.drop_left _ _
  · simp [h2]

/-- The 4-byte payload-size field at offset 48 of the canonical bytes
(sender 32 ‖ nonce 8 ‖ energy 8 come before it). -/
def headerPayloadSizeField (b : Bytes) : Bytes := (b.drop 48).take 4

theorem serializeAccountTransactionHeader_ok_inv {txn : Txn α} {ps : ℤ} {hdr : Bytes}
    (h : serializeAccountTransactionHeader txn ps = .ok hdr) :
    ∃ n8 e8 s4 x8, encodeWord64 txn.nonce = .ok n8 ∧
      encodeWord64 txn.energyAmount = .ok e8 ∧ encodeWord32 ps = .ok s4 ∧
      encodeWord64 txn.expiry = .ok x8 ∧
      hdr = txn.sender ++ n8 ++ e8 ++ s4 ++ x8 := by
  unfold serializeAccountTransactionHeader at h
  rw [bindOk] at h
  obtain ⟨n8, hn, h⟩ := h
  rw [bindOk] at h
  obtain ⟨e8, he, h⟩ := h
  rw [bindOk] at h
  obtain ⟨s4, hs, h⟩ := h
  rw [bindOk] at h
  obtain ⟨x8, hx, h⟩ := h
  cases h
  exact ⟨n8, e8, s4, x8, hn, he, hs, hx, rfl⟩

theorem headerPayloadSizeField_spec {sender n8 e8 s4 x8 rest : Bytes}
    (hs : sender.length = 32) (hn : n8.length = 8) (he : e8.length = 8)
    (hs4 : s4.length = 4) :
    headerPayloadSizeField ((sender ++ n8 ++ e8 ++ s4 ++ x8) ++ rest) = s4 := by
  have h48 : (sender ++ n8 ++ e8).length = 48 := by simp [hs, hn, he]
  have hrw : (sender ++ n8 ++ e8 ++ s4 ++ x8) ++ rest =
      (sender ++ n8 ++ e8) ++ (s4 ++ (x8 ++ rest)) := by
    simp [List.append_assoc]
  rw [headerPayloadSizeField, hrw, ← h48, List.drop_left, ← hs4, List.take_left]

theorem serializeAccountTransaction_ok_inv
    {handlerSerialize : α → Except JsError Bytes} {txn : Txn α} {out : Bytes}
    (h : serializeAccountTransaction handlerSerialize txn = .ok out) :
    ∃ p hdr, handlerSerialize txn.payload = .ok p ∧
      serializeAccountTransactionHeader txn ((p.length : ℤ) + 1) = .ok hdr ∧
      out = hdr ++ [txn.transactionKind % 256] ++ p := by
  unfold serializeAccountTransaction at h
  rw [bindOk] at h
  obtain ⟨p, hp, h⟩ := h
  rw [bindOk] at h
  obtain ⟨hdr, hh, h⟩ := h
  cases h
  exact ⟨p, hdr, hp, hh, rfl⟩

theorem serializeAccountTransaction_ok_ne_nil
    {handlerSerialize : α → Except JsError Bytes} {txn : Txn α} {out : Bytes}
    (h : serializeAccountTransaction handlerSerialize txn = .ok out) : out ≠ [] := by
  obtain ⟨p, hdr, -, -, hout⟩ := serializeAccountTransaction_ok_inv h
  subst hout
  simp

/-- C1: for every input byte sequence, concatenating in order all frames
produced by the frame splitter reproduces exactly the bytes that were split:
the frames of `serializeTransactionPayloads` flatten back to the input, and
the frames of `serializeTransactionPayloadsWithDerivationPath` flatten back
to the input once the path-prefix bytes are removed from the first frame. -/
theorem claim1_frames_roundtrip :
    (∀ rawTx : Bytes, (serializeTransactionPayloads rawTx).flatten = rawTx) ∧
    (∀ (path : String) (rawTx pb : Bytes) (frames : List Bytes),
      pathBufferOf path = .ok pb →
      serializeTransactionPayloadsWithDerivationPath path rawTx = .ok frames →
      dropPrefixFlatten pb.length frames = rawTx) :=
  ⟨serializeTransactionPayloads_join,
   fun _ _ _ _ hpb hfr => withPath_rejoin_aux hpb hfr⟩

theorem claim1_witness :
    pathBufferOf "44'/0'" = .ok [2, 128, 0, 0, 44, 128, 0, 0, 0] ∧
    serializeTransactionPayloadsWithDerivationPath "44'/0'" [1, 2, 3] =
      .ok [[2, 128, 0, 0, 44, 128, 0, 0, 0, 1, 2, 3]] ∧
    dropPrefixFlatten 9 [[2, 128, 0, 0, 44, 128, 0, 0, 0, 1, 2, 3]] = [1, 2, 3] ∧
    (serializeTransactionPayloads [1, 2, 3]).flatten = [1, 2, 3] :=
  ⟨by decide, by decide,
   claim1_frames_roundtrip.2 "44'/0'" [1, 2, 3] [2, 128, 0, 0, 44, 128, 0, 0, 0]
     [[2, 128, 0, 0, 44, 128, 0, 0, 0, 1, 2, 3]] (by decide) (by decide),
   claim1_frames_roundtrip.1 [1, 2, 3]⟩

/-- C5 (failing input): the 64-bit encoder's boundary is wrong.  Because the
guard's `Number` literal `18446744073709551615` rounds to `2^64`, encoding
`2^64` succeeds and wraps to eight zero bytes instead of being rejected as
out of the 64-bit range (the encoder's own documentation and error message
require a 64-bit unsigned integer); `2^64 - 1` and the true rejections are
as documented, and the 32-bit encoder's boundary at `2^32` is exact. -/
theorem claim5_encodeWord64_boundary :
    encodeWord64 18446744073709551616 = .ok [0, 0, 0, 0, 0, 0, 0, 0] ∧
    encodeWord64 18446744073709551615 =
      .ok [255, 255, 255, 255, 255, 255, 255, 255] ∧
    encodeWord64 18446744073709551617 = .error .rangeError ∧
    encodeWord64 (-1) = .error .rangeError ∧
    encodeWord32 4294967296 = .error .rangeError ∧
    encodeWord32 4294967295 = .ok [255, 255, 255, 255] :=
  ⟨by decide, by decide, by decide, by decide, by decide, by decide⟩

set_option maxRecDepth 40000 in
/-- C6 (counterexample): with the 5-component path `44'/919'/0'/0/0`
(21 path-prefix bytes) and a 255-byte input, the single frame produced by
the path-prefixed splitter is 276 bytes long — the chunk size is computed
without subtracting the prefix, so the first frame exceeds 255 bytes. -/
theorem claim6_counterexample :
    (serializeTransactionPayloadsWithDerivationPath "44'/919'/0'/0/0"
        (List.replicate 255 0)).map (fun frames => frames.map List.length) =
      .ok [276] ∧ ¬ (276 ≤ 255) :=
  ⟨by decide, by decide⟩

/-- C6 (amended): every frame of the plain splitter is at most 255 bytes,
and in the path-prefixed splitter every frame after the first is at most
255 bytes; the first frame, however, is the path prefix plus a full
`min 255 |input|` payload bytes — its capacity is NOT reduced by the
prefix, so it exceeds 255 bytes whenever the prefix is nonempty and the
input has at least 255 bytes. -/
theorem claim6_frame_bound_amended :
    (∀ rawTx : Bytes, ∀ f ∈ serializeTransactionPayloads rawTx, f.length ≤ 255) ∧
    (∀ (path : String) (rawTx pb : Bytes) (frames : List Bytes),
      pathBufferOf path = .ok pb →
      serializeTransactionPayloadsWithDerivationPath path rawTx = .ok frames →
      (∀ f ∈ frames.tail, f.length ≤ 255) ∧
      (rawTx ≠ [] →
        frames.head? = some (pb ++ rawTx.take 255) ∧
        (frames.headD []).length = pb.length + min 255 rawTx.length)) := by
  constructor
  · exact serializeTransactionPayloads_frame_le
  · intro path rawTx pb frames hpb hfr
    refine ⟨withPath_frames_tail_le hfr, fun hne => ?_⟩
    have hh := withPath_first_frame hpb hfr hne
    refine ⟨hh, ?_⟩
    have hhd : frames.headD [] = pb ++ rawTx.take 255 := by
      cases frames with
      | nil => simp at hh
      | cons f rest =>
          simp only [List.head?_cons, Option.some.injEq] at hh
          simp [hh]
    rw [hhd]
    simp [List.length_take]

theorem claim6_witness :
    serializeTransactionPayloadsWithDerivationPath "44'/0'" [9] =
      .ok [[2, 128, 0, 0, 44, 128, 0, 0, 0, 9]] ∧
    ([[2, 128, 0, 0, 44, 128, 0, 0, 0, 9]].headD ([] : Bytes)).length =
      List.length [2, 128, 0, 0, 44, 128, 0, 0, 0] + min 255 (List.length [9]) :=
  ⟨by decide,
   ((claim6_frame_bound_amended.2 "44'/0'" [9] [2, 128, 0, 0, 44, 128, 0, 0, 0]
       [[2, 128, 0, 0, 44, 128, 0, 0, 0, 9]] (by decide) (by decide)).2
     (by decide)).2⟩

/-- C7 (counterexample): for the empty input the frame splitter produces no
frame at all (the `while (offset !== rawTx.length)` body never runs), not
"at least one (empty) frame". -/
theorem claim7_counterexample :
    ¬ 1 ≤ (serializeTransactionPayloads []).length := by decide

/-- C7 (amended): the splitter yields zero frames for empty input and at
least one frame for every nonempty input — so a call site that sends
`frames[0]` has a frame exactly when the field being split is nonempty. -/
theorem claim7_empty_amended :
    serializeTransactionPayloads [] = [] ∧
    (∀ b : Bytes, b ≠ [] → 1 ≤ (serializeTransactionPayloads b).length) := by
  refine ⟨rfl, fun b hb => ?_⟩
  rw [serializeTransactionPayloads_cons b hb]
  simp

theorem claim7_witness : 1 ≤ (serializeTransactionPayloads [5]).length :=
  claim7_empty_amended.2 [5] (by decide)

/-- The per-component behaviour the amended C8 describes: `parseInt` the
component; skip it (`none`) when non-numeric; add `0x80000000` when it is
longer than one character and ends with the hardening apostrophe. -/
def parseHardenedComponent (element : List Char) : Option ℤ :=
  (parseIntJs element).map fun n =>
    if 1 < element.length ∧ element.getLast? = some (Char.ofNat 39)
    then n + 2147483648 else n

theorem splitPathComponents_eq_filterMap (comps : List (List Char)) :
    ∀ acc, comps.foldl splitPathStep acc =
      acc ++ comps.filterMap parseHardenedComponent := by
  induction comps with
  | nil => intro acc; simp [splitPathComponents]
  | cons e rest ih =>
      intro acc
      simp only [List.foldl_cons, List.filterMap_cons]
      cases hpe : parseIntJs e with
      | none => simp [splitPathStep, parseHardenedComponent, hpe, ih]
      | some n => simp [splitPathStep, parseHardenedComponent, hpe, ih]

theorem mapM_writeUInt32BE {p : List ℤ} (h : ∀ v ∈ p, 0 ≤ v ∧ v ≤ 4294967295) :
    p.mapM writeUInt32BE = .ok (p.map fun v => beBytes 4 v.toNat) := by
  induction p with
  | nil => rfl
  | cons v rest ih =>
      have hv := h v (by simp)
      have hw : writeUInt32BE v = .ok (beBytes 4 v.toNat) := by
        unfold writeUInt32BE
        rw [if_neg (by omega)]
      simp only [List.mapM_cons, hw, ih (fun w hw => h w (by simp [hw])),
        List.map_cons]
      rfl

/-- C8 (amended): `splitPath` silently SKIPS components that are non-numeric
after stripping the hardening marker (it never fails), adding `0x80000000`
to each remaining component that carries the marker; and for every component
list of `k` in-range values (`k ≤ 255`, each value `< 2^32`) `serializePath`
outputs exactly `1 + 4k` bytes: the count byte `k` followed by each value
big-endian. -/
theorem claim8_path_encoder_amended :
    (∀ comps : List (List Char),
      splitPathComponents comps = comps.filterMap parseHardenedComponent) ∧
    (∀ p : List ℤ, (∀ v ∈ p, 0 ≤ v ∧ v ≤ 4294967295) → p.length ≤ 255 →
      serializePath p =
        .ok (p.length :: (p.map fun v => beBytes 4 v.toNat).flatten) ∧
      (p.length :: (p.map fun v => beBytes 4 v.toNat).flatten).length =
        1 + 4 * p.length) := by
  constructor
  · intro comps
    simpa using splitPathComponents_eq_filterMap comps []
  · intro p hp hlen
    have h8 : writeUInt8 (p.length : ℤ) = .ok [p.length] := by
      unfold writeUInt8
      rw [if_neg (by omega)]
      simp
    constructor
    · unfold serializePath
      rw [bindOk]
      refine ⟨[p.length], h8, ?_⟩
      rw [bindOk]
      exact ⟨_, mapM_writeUInt32BE hp, rfl⟩
    · have : ((p.map fun v => beBytes 4 v.toNat).flatten).length = 4 * p.length := by
        rw [List.length_flatten, List.map_map]
        have : (List.map (List.length ∘ fun v => beBytes 4 v.toNat) p) =
            List.map (fun _ => 4) p := by
          apply List.map_congr_left
          intro v _
          simp [Function.comp, beBytes_length]
        rw [this, List.map_const', List.sum_replicate, smul_eq_mul]
        ring
      simp [this]
      ring

/-- C8 (counterexample): the path `44'/x/0` contains the non-numeric
component `x`, yet the path encoder does not fail with a malformed-path
error — it silently skips `x` and encodes the two numeric components. -/
theorem claim8_counterexample :
    serializePath (splitPath "44'/x/0") = .ok [2, 128, 0, 0, 44, 0, 0, 0, 0] := by
  decide

theorem claim8_witness :
    splitPathComponents [['4', '4', Char.ofNat 39], ['x'], ['0']] =
      List.filterMap parseHardenedComponent
        [['4', '4', Char.ofNat 39], ['x'], ['0']] ∧
    serializePath [2147483692, 0] =
      .ok (List.length [(2147483692 : ℤ), 0] ::
        (List.map (fun v => beBytes 4 v.toNat) [(2147483692 : ℤ), 0]).flatten) :=
  ⟨claim8_path_encoder_amended.1 [['4', '4', Char.ofNat 39], ['x'], ['0']],
   (claim8_path_encoder_amended.2 [2147483692, 0] (by decide) (by decide)).1⟩

/-- C10: the memo, schedule-and-memo, and register-data serializers replace
`txn.payload.memo` (respectively `txn.payload.data`) with a `DataBlob`
wrapping the original string's UTF-8 bytes before serializing: the
transaction handed back to the caller is mutated (the field no longer equals
the original string value), and a second call on the same object does not
see the original string — it fails on the `DataBlob`. -/
theorem claim10_mutation :
    (∀ (txn : Txn MemoPayload) (path : String) (s : String),
      txn.payload.memo = .str s →
      (serializeSimpleTransferWithMemo txn path).1.payload.memo =
        .blob (utf8Bytes s) ∧
      (serializeSimpleTransferWithMemo txn path).1.payload.memo ≠
        txn.payload.memo ∧
      (serializeSimpleTransferWithMemo
        (serializeSimpleTransferWithMemo txn path).1 path).2 = .error .typeError) ∧
    (∀ (txn : Txn ScheduleMemoPayload) (path : String) (s : String),
      txn.payload.memo = .str s →
      (serializeTransferWithScheduleAndMemo txn path).1.payload.memo =
        .blob (utf8Bytes s) ∧
      (serializeTransferWithScheduleAndMemo txn path).1.payload.memo ≠
        txn.payload.memo ∧
      (serializeTransferWithScheduleAndMemo
        (serializeTransferWithScheduleAndMemo txn path).1 path).2 =
        .error .typeError) ∧
    (∀ (txn : Txn RegisterDataPayload) (path : String) (s : String),
      txn.payload.data = .str s →
      (serializeRegisterData txn path).1.payload.data = .blob (utf8Bytes s) ∧
      (serializeRegisterData txn path).1.payload.data ≠ txn.payload.data ∧
      (serializeRegisterData (serializeRegisterData txn path).1 path).2 =
        .error .typeError) := by
  refine ⟨?_, ?_, ?_⟩
  · intro txn path s h
    refine ⟨?_, ?_, ?_⟩
    · simp [serializeSimpleTransferWithMemo, h]
    · simp [serializeSimpleTransferWithMemo, h]
    · simp [serializeSimpleTransferWithMemo, h]
  · intro txn path s h
    refine ⟨?_, ?_, ?_⟩
    · simp [serializeTransferWithScheduleAndMemo, h]
    · simp [serializeTransferWithScheduleAndMemo, h]
    · simp [serializeTransferWithScheduleAndMemo, h]
  · intro txn path s h
    refine ⟨?_, ?_, ?_⟩
    · simp [serializeRegisterData, h]
    · simp [serializeRegisterData, h]
    · simp [serializeRegisterData, h]

def memoTxnW : Txn MemoPayload :=
  { transactionKind := 3, sender := List.replicate 32 0, nonce := 1,
    energyAmount := 1, expiry := 1,
    payload := { toAddress := List.replicate 32 1, memo := .str "hi",
                 amountMicroCcd := 5 } }

def schedMemoTxnW : Txn ScheduleMemoPayload :=
  { transactionKind := 24, sender := List.replicate 32 0, nonce := 1,
    energyAmount := 1, expiry := 1,
    payload := { toAddress := List.replicate 32 1,
                 schedule := [{ timestamp := 1, amount := 2 }],
                 memo := .str "m" } }

def registerDataTxnW : Txn RegisterDataPayload :=
  { transactionKind := 21, sender := List.replicate 32 0, nonce := 1,
    energyAmount := 1, expiry := 1, payload := { data := .str "r" } }

theorem claim10_witness :
    (serializeSimpleTransferWithMemo memoTxnW "44'/0'").1.payload.memo =
      .blob (utf8Bytes "hi") ∧
    (serializeTransferWithScheduleAndMemo schedMemoTxnW "44'/0'").1.payload.memo =
      .blob (utf8Bytes "m") ∧
    (serializeRegisterData registerDataTxnW "44'/0'").1.payload.data =
      .blob (utf8Bytes "r") :=
  ⟨(claim10_mutation.1 memoTxnW "44'/0'" "hi" rfl).1,
   (claim10_mutation.2.1 schedMemoTxnW "44'/0'" "m" rfl).1,
   (claim10_mutation.2.2 registerDataTxnW "44'/0'" "r" rfl).1⟩

theorem schedChunksFuel_stop {fuel n : ℕ} {sched : Bytes} {i : ℕ} {r : ℤ}
    (h : ¬ i < n) : schedChunksFuel fuel n sched i r = [] := by
  cases fuel <;> simp [schedChunksFuel, h]

theorem schedChunksFuel_spec :
    ∀ (fuel n : ℕ) (sched : Bytes) (i : ℕ) (r : ℤ),
      sched.length = 16 * n → i < n → (n : ℤ) ≤ r + i →
      (n - i + 14) / 15 ≤ fuel →
      (schedChunksFuel fuel n sched i r).flatten = sched.drop (i * 16) ∧
      (schedChunksFuel fuel n sched i r).length = (n - i + 14) / 15 ∧
      (∀ f ∈ schedChunksFuel fuel n sched i r,
        f.length % 16 = 0 ∧ 1 ≤ f.length ∧ f.length ≤ 240) := by
  intro fuel
  induction fuel with
  | zero =>
      intro n sched i r hlen hi hr hfuel
      exfalso
      omega
  | succ f ih =>
      intro n sched i r hlen hi hr hfuel
      have hbody : schedChunksFuel (f + 1) n sched i r =
          serializeTransactionPayloads
            ((sched.drop (i * 16)).take
              (((if (15 : ℤ) < r then 15 else r) * 16)).toNat) ++
          schedChunksFuel f n sched (i + 15) ((n : ℤ) - 15) := by
        simp only [schedChunksFuel]
        rw [if_pos hi]
      set off : ℤ := if (15 : ℤ) < r then 15 else r with hoff
      have hoff1 : 1 ≤ off := by
        rw [hoff]; split <;> omega
      have hoff15 : off ≤ 15 := by
        rw [hoff]; split <;> omega
      set chunk : Bytes := (sched.drop (i * 16)).take ((off * 16)).toNat
        with hchunkdef
      have hdroplen : (sched.drop (i * 16)).length = 16 * n - i * 16 := by
        simp [List.length_drop, hlen]
      have hclen : chunk.length = min ((off * 16)).toNat (16 * n - i * 16) := by
        rw [hchunkdef, List.length_take, hdroplen]
      have hchunk_ne : chunk ≠ [] :=
        List.length_pos.mp (by rw [hclen]; omega)
      have hchunk_le : chunk.length ≤ 255 := by rw [hclen]; omega
      have hsingle : serializeTransactionPayloads chunk = [chunk] :=
        serializeTransactionPayloads_single chunk hchunk_ne hchunk_le
      rw [hbody, hsingle]
      by_cases hcase : i + 15 < n
      · have hoffeq : off = 15 := by rw [hoff, if_pos (by omega)]
        obtain ⟨ihf, ihl, ihm⟩ :=
          ih n sched (i + 15) ((n : ℤ) - 15) hlen hcase (by omega) (by omega)
        have hchunk240 : chunk = (sched.drop (i * 16)).take 240 := by
          rw [hchunkdef, hoffeq]
          rfl
        have hdropnext : sched.drop ((i + 15) * 16) =
            (sched.drop (i * 16)).drop 240 := by
          rw [List.drop_drop]
          congr 1
          ring
        refine ⟨?_, ?_, ?_⟩
        · rw [List.flatten_append, ihf]
          simp only [List.flatten_cons, List.flatten_nil, List.append_nil]
          rw [hchunk240, hdropnext, List.take_append_drop]
        · simp only [List.length_append, ihl, List.length_cons, List.length_nil]
          omega
        · intro g hg
          rcases List.mem_append.mp hg with hg | hg
          · have hgc : g = chunk := by simpa using hg
            subst hgc
            have : chunk.length = 240 := by rw [hclen, hoffeq]; omega
            omega
          · exact ihm g hg
      · have hstop : schedChunksFuel f n sched (i + 15) ((n : ℤ) - 15) = [] :=
          schedChunksFuel_stop hcase
        have hoffge : (n : ℤ) - i ≤ off := by
          rw [hoff]; split <;> omega
        have hchunkall : chunk = sched.drop (i * 16) := by
          rw [hchunkdef]
          apply List.take_of_length_le
          rw [hdroplen]
          omega
        rw [hstop]
        refine ⟨?_, ?_, ?_⟩
        · simp [hchunkall]
        · simp only [List.append_nil, List.length_cons, List.length_nil]
          omega
        · intro g hg
          have hgc : g = chunk := by simpa using hg
          subst hgc
          have : chunk.length = 16 * n - i * 16 := by
            rw [hchunkall, hdroplen]
          omega

theorem schedChunks_spec {n : ℕ} {sched : Bytes} (hlen : sched.length = 16 * n) :
    (schedChunks n sched).flatten = sched ∧
    (schedChunks n sched).length = (n + 14) / 15 ∧
    (∀ f ∈ schedChunks n sched, f.length % 16 = 0 ∧ 1 ≤ f.length ∧
      f.length ≤ 240) := by
  rcases Nat.eq_zero_or_pos n with hn | hn
  · subst hn
    have hnil : sched = [] := List.eq_nil_of_length_eq_zero (by omega)
    subst hnil
    refine ⟨rfl, rfl, ?_⟩
    intro f hf
    simp [schedChunks, schedChunksFuel] at hf
  · have h := schedChunksFuel_spec n n sched 0 (n : ℤ) hlen hn (by omega)
      (by omega)
    simpa [schedChunks] using h

theorem encodeSchedItem_ok_length {it : SchedItem} {b : Bytes}
    (h : encodeSchedItem it = .ok b) : b.length = 16 := by
  unfold encodeSchedItem at h
  rw [bindOk] at h
  obtain ⟨t, ht, h⟩ := h
  rw [bindOk] at h
  obtain ⟨a, ha, h⟩ := h
  cases h
  simp [encodeWord64_ok_length ht, encodeWord64_ok_length ha]

theorem mapM_encodeSchedItem_inv :
    ∀ {sched : List SchedItem} {bufs : List Bytes},
      sched.mapM encodeSchedItem = .ok bufs →
      bufs.length = sched.length ∧ ∀ b ∈ bufs, b.length = 16 := by
  intro sched
  induction sched with
  | nil =>
      intro bufs h
      cases h
      simp
  | cons it rest ih =>
      intro bufs h
      rw [List.mapM_cons] at h
      rw [bindOk] at h
      obtain ⟨b, hb, h⟩ := h
      rw [bindOk] at h
      obtain ⟨bs, hbs, h⟩ := h
      cases h
      obtain ⟨hl, hm⟩ := ih hbs
      refine ⟨by simp [hl], ?_⟩
      intro g hg
      rcases List.mem_cons.mp hg with hg | hg
      · subst hg; exact encodeSchedItem_ok_length hb
      · exact hm g hg

theorem schedBufs_flatten_length {sched : List SchedItem} {bufs : List Bytes}
    (h : sched.mapM encodeSchedItem = .ok bufs) :
    bufs.flatten.length = 16 * sched.length := by
  obtain ⟨hl, hm⟩ := mapM_encodeSchedItem_inv h
  rw [List.length_flatten]
  have : bufs.map List.length = bufs.map fun _ => 16 :=
    List.map_congr_left fun b hb => hm b hb
  rw [this, List.map_const', List.sum_replicate, smul_eq_mul, hl]
  ring

/-- C2 (amended): for every schedule whose length `n` the serializers accept
(`n ≤ 127`; success of the serializer is the hypothesis), both
`serializeTransferWithSchedule` and `serializeTransferWithScheduleAndMemo`
produce exactly `⌈n/15⌉` schedule frames, each frame a nonempty multiple of
16 bytes of at most 15 complete pairs (≤ 240 bytes), and the concatenation
of all schedule frames is exactly the `n × 16` serialized pair bytes in
order.  For `n ≥ 128` the claim fails: the schedule count is encoded with
the SIGNED 8-bit encoder, so the serializers throw a range error instead of
producing `⌈n/15⌉` frames. -/
theorem claim2_schedule_chunks_amended :
    (∀ (txn : Txn SchedulePayload) (path : String) (out : ScheduleFrames)
       (bufs : List Bytes),
      serializeTransferWithSchedule txn path = .ok out →
      txn.payload.schedule.mapM encodeSchedItem = .ok bufs →
      out.payloadsSchedule.length = (txn.payload.schedule.length + 14) / 15 ∧
      out.payloadsSchedule.flatten = bufs.flatten ∧
      out.payloadsSchedule.flatten.length = 16 * txn.payload.schedule.length ∧
      (∀ f ∈ out.payloadsSchedule,
        f.length % 16 = 0 ∧ 1 ≤ f.length ∧ f.length ≤ 240)) ∧
    (∀ (txn : Txn ScheduleMemoPayload) (path : String) (out : ScheduleMemoFrames)
       (bufs : List Bytes),
      (serializeTransferWithScheduleAndMemo txn path).2 = .ok out →
      txn.payload.schedule.mapM encodeSchedItem = .ok bufs →
      out.payloadsSchedule.length = (txn.payload.schedule.length + 14) / 15 ∧
      out.payloadsSchedule.flatten = bufs.flatten ∧
      out.payloadsSchedule.flatten.length = 16 * txn.payload.schedule.length ∧
      (∀ f ∈ out.payloadsSchedule,
        f.length % 16 = 0 ∧ 1 ≤ f.length ∧ f.length ≤ 240)) ∧
    (∀ (txn : Txn SchedulePayload) (path : String),
      128 ≤ txn.payload.schedule.length →
      serializeTransferWithSchedule txn path = .error .rangeError) ∧
    (∀ (txn : Txn ScheduleMemoPayload) (path : String) (s : String),
      txn.payload.memo = .str s → 128 ≤ txn.payload.schedule.length →
      (serializeTransferWithScheduleAndMemo txn path).2 = .error .rangeError) := by
  refine ⟨?_, ?_, ?_, ?_⟩
  · intro txn path out bufs hser hbufs
    simp only [serializeTransferWithSchedule] at hser
    rw [bindOk] at hser
    obtain ⟨sl, hsl, hser⟩ := hser
    rw [bindOk] at hser
    obtain ⟨bufs2, hbufs2, hser⟩ := hser
    have hb : bufs2 = bufs := Except.ok.inj (hbufs2.symm.trans hbufs)
    rw [bindOk] at hser
    obtain ⟨hdr, hhdr, hser⟩ := hser
    rw [bindOk] at hser
    obtain ⟨frames, hframes, hser⟩ := hser
    cases hser
    rw [hb]
    have hlenflat : bufs.flatten.length = 16 * txn.payload.schedule.length :=
      schedBufs_flatten_length hbufs
    obtain ⟨hf, hl, hm⟩ := schedChunks_spec hlenflat
    exact ⟨hl, hf, by rw [hf]; exact hlenflat, hm⟩
  · intro txn path out bufs hser hbufs
    rcases hmemo : txn.payload.memo with s | d
    · simp only [serializeTransferWithScheduleAndMemo, hmemo] at hser
      rw [bindOk] at hser
      obtain ⟨sl, hsl, hser⟩ := hser
      rw [bindOk] at hser
      obtain ⟨bufs2, hbufs2, hser⟩ := hser
      have hb : bufs2 = bufs := Except.ok.inj (hbufs2.symm.trans hbufs)
      rw [bindOk] at hser
      obtain ⟨m, hmm, hser⟩ := hser
      rw [bindOk] at hser
      obtain ⟨hdr, hhdr, hser⟩ := hser
      rw [bindOk] at hser
      obtain ⟨frames, hframes, hser⟩ := hser
      cases hser
      rw [hb]
      have hlenflat : bufs.flatten.length = 16 * txn.payload.schedule.length :=
        schedBufs_flatten_length hbufs
      obtain ⟨hf, hl, hm⟩ := schedChunks_spec hlenflat
      exact ⟨hl, hf, by rw [hf]; exact hlenflat, hm⟩
    · simp [serializeTransferWithScheduleAndMemo, hmemo] at hser
  · intro txn path hge
    have h8 : encodeInt8 ((txn.payload.schedule.length : ℕ) : ℤ) =
        .error .rangeError := by
      unfold encodeInt8
      rw [if_pos]
      left
      exact_mod_cast Nat.lt_of_lt_of_le (by norm_num) hge
    simp [serializeTransferWithSchedule, h8, Bind.bind, Except.bind]
  · intro txn path s hmemo hge
    have h8 : encodeInt8 ((txn.payload.schedule.length : ℕ) : ℤ) =
        .error .rangeError := by
      unfold encodeInt8
      rw [if_pos]
      left
      exact_mod_cast Nat.lt_of_lt_of_le (by norm_num) hge
    simp [serializeTransferWithScheduleAndMemo, hmemo, h8, Bind.bind, Except.bind]

def sched128TxnW : Txn SchedulePayload :=
  { transactionKind := 19, sender := List.replicate 32 0, nonce := 1,
    energyAmount := 1, expiry := 1,
    payload := { toAddress := List.replicate 32 1,
                 schedule := List.replicate 128 { timestamp := 0, amount := 0 } } }

set_option maxRecDepth 40000 in
/-- C2 (counterexample): a schedule of length 128 (within the claimed range
`1 ≤ n ≤ 255`) does not yield `⌈128/15⌉ = 9` frames — the serializer throws
a range error, because `encodeInt8` (the signed 8-bit encoder) rejects the
count 128. -/
theorem claim2_counterexample :
    serializeTransferWithSchedule sched128TxnW "44'/0'" = .error .rangeError := by
  decide

def sched16TxnW : Txn SchedulePayload :=
  { transactionKind := 19, sender := List.replicate 32 0, nonce := 1,
    energyAmount := 1, expiry := 1,
    payload := { toAddress := List.replicate 32 1,
                 schedule := List.replicate 16 { timestamp := 1, amount := 2 } } }

def sched16OutW : ScheduleFrames :=
  { payloadHeaderAddressScheduleLength :=
      [[2, 128, 0, 0, 44, 128, 0, 0, 0] ++ List.replicate 32 0 ++ beBytes 8 1 ++
        beBytes 8 1 ++ beBytes 4 290 ++ beBytes 8 1 ++ [19] ++
        List.replicate 32 1 ++ [16]],
    payloadsSchedule :=
      [(List.replicate 15 (beBytes 8 1 ++ beBytes 8 2)).flatten,
       beBytes 8 1 ++ beBytes 8 2] }

def sched200TxnW : Txn ScheduleMemoPayload :=
  { transactionKind := 24, sender := List.replicate 32 0, nonce := 1,
    energyAmount := 1, expiry := 1,
    payload := { toAddress := List.replicate 32 1,
                 schedule := List.replicate 200 { timestamp := 0, amount := 0 },
                 memo := .str "m" } }

set_option maxRecDepth 40000 in
theorem claim2_witness :
    serializeTransferWithSchedule sched16TxnW "44'/0'" = .ok sched16OutW ∧
    sched16OutW.payloadsSchedule.length =
      (sched16TxnW.payload.schedule.length + 14) / 15 ∧
    sched16OutW.payloadsSchedule.flatten.length =
      16 * sched16TxnW.payload.schedule.length ∧
    (serializeTransferWithScheduleAndMemo sched200TxnW "44'/0'").2 =
      .error .rangeError :=
  ⟨by decide,
   (claim2_schedule_chunks_amended.1 sched16TxnW "44'/0'" sched16OutW
     (List.replicate 16 (beBytes 8 1 ++ beBytes 8 2)) (by decide) (by decide)).1,
   (claim2_schedule_chunks_amended.1 sched16TxnW "44'/0'" sched16OutW
     (List.replicate 16 (beBytes 8 1 ++ beBytes 8 2)) (by decide) (by decide)).2.2.1,
   claim2_schedule_chunks_amended.2.2.2 sched200TxnW "44'/0'" "m" rfl (by decide)⟩

theorem sizeField_header {txn : Txn α} {k : ℕ} {hdr : Bytes} (rest : Bytes)
    (hs : txn.sender.length = 32)
    (hhdr : serializeAccountTransactionHeader txn (k : ℤ) = .ok hdr) :
    headerPayloadSizeField (hdr ++ rest) = beBytes 4 k := by
  obtain ⟨n8, e8, s4, x8, hn, he, hsz, hx, hhe⟩ :=
    serializeAccountTransactionHeader_ok_inv hhdr
  subst hhe
  have hs4 : s4 = beBytes 4 k := encodeWord32_ok_nat hsz
  have h4 : s4.length = 4 := by rw [hs4]; exact beBytes_length _ _
  rw [headerPayloadSizeField_spec hs (encodeWord64_ok_length hn)
    (encodeWord64_ok_length he) h4, hs4]

/-- C3: for every per-kind serializer, the 32-bit payload-size field written
at offset 48 of the 60-byte header equals the byte length of the serialized
payload plus one (the kind tag), computed from the serialized parts
themselves — never taken from caller input (the transaction model carries
no size field at all).  Stated for the generic
`serializeAccountTransaction` (used by the streaming kinds, configure-baker
and update-credentials) and for each hand-rolled serializer, with the
payload length reconstructed from the serializer's own output. -/
theorem claim3_payload_size_field :
    (∀ (α : Type) (handlerSerialize : α → Except JsError Bytes) (txn : Txn α)
       (out p : Bytes),
      txn.sender.length = 32 → handlerSerialize txn.payload = .ok p →
      serializeAccountTransaction handlerSerialize txn = .ok out →
      headerPayloadSizeField out = beBytes 4 (p.length + 1)) ∧
    (∀ (txn : Txn MemoPayload) (path : String) (s : String)
       (out : MemoFrames) (pb : Bytes),
      txn.sender.length = 32 → txn.payload.memo = .str s →
      pathBufferOf path = .ok pb →
      (serializeSimpleTransferWithMemo txn path).2 = .ok out →
      headerPayloadSizeField
          (dropPrefixFlatten pb.length out.payloadHeaderAddressMemoLength) =
        beBytes 4 (txn.payload.toAddress.length +
          (2 + out.payloadsMemo.flatten.length) + 8 + 1)) ∧
    (∀ (txn : Txn SchedulePayload) (path : String) (out : ScheduleFrames)
       (pb : Bytes),
      txn.sender.length = 32 → pathBufferOf path = .ok pb →
      serializeTransferWithSchedule txn path = .ok out →
      headerPayloadSizeField
          (dropPrefixFlatten pb.length out.payloadHeaderAddressScheduleLength) =
        beBytes 4 (txn.payload.toAddress.length + 1 +
          16 * txn.payload.schedule.length + 1)) ∧
    (∀ (txn : Txn ScheduleMemoPayload) (path : String) (s : String)
       (out : ScheduleMemoFrames) (pb : Bytes),
      txn.sender.length = 32 → txn.payload.memo = .str s →
      pathBufferOf path = .ok pb →
      (serializeTransferWithScheduleAndMemo txn path).2 = .ok out →
      headerPayloadSizeField (dropPrefixFlatten pb.length
          out.payloadHeaderAddressScheduleLengthAndMemoLength) =
        beBytes 4 (txn.payload.toAddress.length + 1 +
          16 * txn.payload.schedule.length +
          (2 + out.payloadMemo.flatten.length) + 1)) ∧
    (∀ (txn : Txn RegisterDataPayload) (path : String) (s : String)
       (out : RegisterDataFrames) (pb : Bytes),
      txn.sender.length = 32 → txn.payload.data = .str s →
      pathBufferOf path = .ok pb →
      (serializeRegisterData txn path).2 = .ok out →
      headerPayloadSizeField (dropPrefixFlatten pb.length out.payloadHeader) =
        beBytes 4 ((2 + out.payloadsData.flatten.length) + 1)) ∧
    (∀ (txn : Txn ToPublicPayload) (path : String) (out : ToPublicFrames)
       (pb : Bytes),
      txn.sender.length = 32 → pathBufferOf path = .ok pb →
      serializeTransferToPublic txn path = .ok out →
      headerPayloadSizeField (dropPrefixFlatten pb.length out.payloadHeader) =
        beBytes 4 (txn.payload.remainingAmount.length + 8 + 8 + 2 +
          out.payloadsProofs.flatten.length + 1)) := by
  refine ⟨?_, ?_, ?_, ?_, ?_, ?_⟩
  · intro α handlerSerialize txn out p hs hp hser
    obtain ⟨p2, hdr, hp2, hhdr, hout⟩ := serializeAccountTransaction_ok_inv hser
    have hpe : p2 = p := Except.ok.inj (hp2.symm.trans hp)
    subst hpe hout
    have hcast : ((p2.length : ℤ) + 1) = ((p2.length + 1 : ℕ) : ℤ) := by
      push_cast
      ring
    rw [hcast] at hhdr
    have := sizeField_header ([txn.transactionKind % 256] ++ p2) hs hhdr
    simpa [List.append_assoc] using this
  · intro txn path s out pb hs hmemo hpb hser
    simp only [serializeSimpleTransferWithMemo, hmemo] at hser
    rw [bindOk] at hser
    obtain ⟨a8, ha8, hser⟩ := hser
    rw [bindOk] at hser
    obtain ⟨m, hm, hser⟩ := hser
    rw [bindOk] at hser
    obtain ⟨hdr, hhdr, hser⟩ := hser
    rw [bindOk] at hser
    obtain ⟨frames, hframes, hser⟩ := hser
    cases hser
    have hrejoin := withPath_rejoin_aux hpb hframes
    simp only
    rw [hrejoin]
    obtain ⟨-, hdrop, hmlen⟩ := encodeDataBlob_take_drop hm
    have ha8l := encodeWord64_ok_length ha8
    have hd : (serializeTransactionPayloads (m.drop 2)).flatten.length =
        m.length - 2 := by
      rw [serializeTransactionPayloads_join, List.length_drop]
    have hfix := sizeField_header
      ([txn.transactionKind % 256] ++ (txn.payload.toAddress ++ m.take 2))
      hs hhdr
    have hnum : 1 + m.length + a8.length + txn.payload.toAddress.length =
        txn.payload.toAddress.length +
          (2 + (serializeTransactionPayloads (m.drop 2)).flatten.length) +
          8 + 1 := by
      rw [hd]
      omega
    rw [← hnum]
    simpa [List.append_assoc] using hfix
  · intro txn path out pb hs hpb hser
    simp only [serializeTransferWithSchedule] at hser
    rw [bindOk] at hser
    obtain ⟨sl, hsl, hser⟩ := hser
    rw [bindOk] at hser
    obtain ⟨bufs, hbufs, hser⟩ := hser
    rw [bindOk] at hser
    obtain ⟨hdr, hhdr, hser⟩ := hser
    rw [bindOk] at hser
    obtain ⟨frames, hframes, hser⟩ := hser
    cases hser
    have hrejoin := withPath_rejoin_aux hpb hframes
    simp only
    rw [hrejoin]
    have hsl1 := encodeInt8_ok_length hsl
    have hbl := schedBufs_flatten_length hbufs
    have hfix := sizeField_header
      ([txn.transactionKind % 256] ++ (txn.payload.toAddress ++ sl))
      hs hhdr
    have hnum : 1 + sl.length + bufs.flatten.length +
        txn.payload.toAddress.length =
        txn.payload.toAddress.length + 1 + 16 * txn.payload.schedule.length +
          1 := by
      omega
    rw [← hnum]
    simpa [List.append_assoc] using hfix
  · intro txn path s out pb hs hmemo hpb hser
    simp only [serializeTransferWithScheduleAndMemo, hmemo] at hser
    rw [bindOk] at hser
    obtain ⟨sl, hsl, hser⟩ := hser
    rw [bindOk] at hser
    obtain ⟨bufs, hbufs, hser⟩ := hser
    rw [bindOk] at hser
    obtain ⟨m, hm, hser⟩ := hser
    rw [bindOk] at hser
    obtain ⟨hdr, hhdr, hser⟩ := hser
    rw [bindOk] at hser
    obtain ⟨frames, hframes, hser⟩ := hser
    cases hser
    have hrejoin := withPath_rejoin_aux hpb hframes
    simp only
    rw [hrejoin]
    have hsl1 := encodeInt8_ok_length hsl
    have hbl := schedBufs_flatten_length hbufs
    obtain ⟨-, hdrop, hmlen⟩ := encodeDataBlob_take_drop hm
    have hd : (serializeTransactionPayloads (m.drop 2)).flatten.length =
        m.length - 2 := by
      rw [serializeTransactionPayloads_join, List.length_drop]
    have hfix := sizeField_header
      ([txn.transactionKind % 256] ++
        (txn.payload.toAddress ++ (sl ++ m.take 2)))
      hs hhdr
    have hnum : 1 + sl.length + bufs.flatten.length +
        txn.payload.toAddress.length + m.length =
        txn.payload.toAddress.length + 1 + 16 * txn.payload.schedule.length +
          (2 + (serializeTransactionPayloads (m.drop 2)).flatten.length) +
          1 := by
      rw [hd]
      omega
    rw [← hnum]
    simpa [List.append_assoc] using hfix
  · intro txn path s out pb hs hdata hpb hser
    simp only [serializeRegisterData, hdata] at hser
    rw [bindOk] at hser
    obtain ⟨m, hm, hser⟩ := hser
    rw [bindOk] at hser
    obtain ⟨hdr, hhdr, hser⟩ := hser
    rw [bindOk] at hser
    obtain ⟨frames, hframes, hser⟩ := hser
    cases hser
    have hrejoin := withPath_rejoin_aux hpb hframes
    simp only
    rw [hrejoin]
    obtain ⟨-, hdrop, hmlen⟩ := encodeDataBlob_take_drop hm
    have hd : (serializeTransactionPayloads (m.drop 2)).flatten.length =
        m.length - 2 := by
      rw [serializeTransactionPayloads_join, List.length_drop]
    have hfix := sizeField_header
      ([txn.transactionKind % 256] ++ m.take 2) hs hhdr
    have hnum : 1 + m.length =
        (2 + (serializeTransactionPayloads (m.drop 2)).flatten.length) + 1 := by
      rw [hd]
      omega
    rw [← hnum]
    simpa [List.append_assoc] using hfix
  · intro txn path out pb hs hpb hser
    simp only [serializeTransferToPublic] at hser
    rw [bindOk] at hser
    obtain ⟨t8, ht8, hser⟩ := hser
    rw [bindOk] at hser
    obtain ⟨i8, hi8, hser⟩ := hser
    rw [bindOk] at hser
    obtain ⟨pl2, hpl2, hser⟩ := hser
    rw [bindOk] at hser
    obtain ⟨hdr, hhdr, hser⟩ := hser
    rw [bindOk] at hser
    obtain ⟨frames, hframes, hser⟩ := hser
    cases hser
    have hrejoin := withPath_rejoin_aux hpb hframes
    simp only
    rw [hrejoin]
    have ht8l := encodeWord64_ok_length ht8
    have hi8l := encodeWord64_ok_length hi8
    obtain ⟨hpl2b, -, -⟩ := encodeWord16_ok_inv hpl2
    have hpl2l : pl2.length = 2 := by rw [hpl2b]; exact beBytes_length _ _
    have hproofs : (serializeTransactionPayloads txn.payload.proofs).flatten =
        txn.payload.proofs := serializeTransactionPayloads_join _
    have hfix := sizeField_header [txn.transactionKind % 256] hs hhdr
    have hnum : txn.payload.remainingAmount.length + t8.length + i8.length +
        pl2.length + txn.payload.proofs.length + 1 =
        txn.payload.remainingAmount.length + 8 + 8 + 2 +
          (serializeTransactionPayloads txn.payload.proofs).flatten.length +
          1 := by
      rw [hproofs]
      omega
    rw [← hnum]
    simpa [List.append_assoc] using hfix

def pbW : Bytes := [2, 128, 0, 0, 44, 128, 0, 0, 0]

def c3HeaderW (sizeV : ℕ) : Bytes :=
  List.replicate 32 0 ++ beBytes 8 1 ++ beBytes 8 1 ++ beBytes 4 sizeV ++
    beBytes 8 1

def c3GenTxnW : Txn Unit :=
  { transactionKind := 3, sender := List.replicate 32 0, nonce := 1,
    energyAmount := 1, expiry := 1, payload := () }

def c3GenTxSW : Bytes := c3HeaderW 2 ++ [3] ++ [7]

def c3mTxnW : Txn MemoPayload :=
  { transactionKind := 3, sender := List.replicate 32 0, nonce := 1,
    energyAmount := 1, expiry := 1,
    payload := { toAddress := List.replicate 32 1, memo := .str "a",
                 amountMicroCcd := 5 } }

def c3mOutW : MemoFrames :=
  { payloadHeaderAddressMemoLength :=
      [pbW ++ (c3HeaderW 44 ++ [3] ++ List.replicate 32 1 ++ [0, 1])],
    payloadsMemo := [[97]],
    payloadsAmount := [beBytes 8 5] }

def c3sTxnW : Txn SchedulePayload :=
  { transactionKind := 19, sender := List.replicate 32 0, nonce := 1,
    energyAmount := 1, expiry := 1,
    payload := { toAddress := List.replicate 32 1,
                 schedule := [{ timestamp := 1, amount := 2 }] } }

def c3sOutW : ScheduleFrames :=
  { payloadHeaderAddressScheduleLength :=
      [pbW ++ (c3HeaderW 50 ++ [19] ++ List.replicate 32 1 ++ [1])],
    payloadsSchedule := [beBytes 8 1 ++ beBytes 8 2] }

def c3smTxnW : Txn ScheduleMemoPayload :=
  { transactionKind := 24, sender := List.replicate 32 0, nonce := 1,
    energyAmount := 1, expiry := 1,
    payload := { toAddress := List.replicate 32 1,
                 schedule := [{ timestamp := 1, amount := 2 }],
                 memo := .str "a" } }

def c3smOutW : ScheduleMemoFrames :=
  { payloadHeaderAddressScheduleLengthAndMemoLength :=
      [pbW ++ (c3HeaderW 53 ++ [24] ++ List.replicate 32 1 ++ [1] ++ [0, 1])],
    payloadMemo := [[97]],
    payloadsSchedule := [beBytes 8 1 ++ beBytes 8 2] }

def c3rTxnW : Txn RegisterDataPayload :=
  { transactionKind := 21, sender := List.replicate 32 0, nonce := 1,
    energyAmount := 1, expiry := 1, payload := { data := .str "a" } }

def c3rOutW : RegisterDataFrames :=
  { payloadHeader := [pbW ++ (c3HeaderW 4 ++ [21] ++ [0, 1])],
    payloadsData := [[97]] }

def c3pTxnW : Txn ToPublicPayload :=
  { transactionKind := 18, sender := List.replicate 32 0, nonce := 1,
    energyAmount := 1, expiry := 1,
    payload := { remainingAmount := [9], transferAmountMicroCcd := 5,
                 index := 0, proofs := [8] } }

def c3pOutW : ToPublicFrames :=
  { payloadHeader := [pbW ++ (c3HeaderW 21 ++ [18])],
    payloadsAmountAndProofsLength := [[9] ++ beBytes 8 5 ++ beBytes 8 0 ++ [0, 1]],
    payloadsProofs := [[8]] }

theorem claim3_witness :
    headerPayloadSizeField c3GenTxSW = beBytes 4 2 ∧
    headerPayloadSizeField
        (dropPrefixFlatten pbW.length c3mOutW.payloadHeaderAddressMemoLength) =
      beBytes 4 (c3mTxnW.payload.toAddress.length +
        (2 + c3mOutW.payloadsMemo.flatten.length) + 8 + 1) ∧
    headerPayloadSizeField (dropPrefixFlatten pbW.length
        c3sOutW.payloadHeaderAddressScheduleLength) =
      beBytes 4 (c3sTxnW.payload.toAddress.length + 1 +
        16 * c3sTxnW.payload.schedule.length + 1) ∧
    headerPayloadSizeField (dropPrefixFlatten pbW.length
        c3smOutW.payloadHeaderAddressScheduleLengthAndMemoLength) =
      beBytes 4 (c3smTxnW.payload.toAddress.length + 1 +
        16 * c3smTxnW.payload.schedule.length +
        (2 + c3smOutW.payloadMemo.flatten.length) + 1) ∧
    headerPayloadSizeField
        (dropPrefixFlatten pbW.length c3rOutW.payloadHeader) =
      beBytes 4 ((2 + c3rOutW.payloadsData.flatten.length) + 1) ∧
    headerPayloadSizeField
        (dropPrefixFlatten pbW.length c3pOutW.payloadHeader) =
      beBytes 4 (c3pTxnW.payload.remainingAmount.length + 8 + 8 + 2 +
        c3pOutW.payloadsProofs.flatten.length + 1) :=
  ⟨claim3_payload_size_field.1 Unit (fun _ => .ok [7]) c3GenTxnW c3GenTxSW [7]
     (by decide) rfl (by decide),
   claim3_payload_size_field.2.1 c3mTxnW "44'/0'" "a" c3mOutW pbW
     (by decide) rfl (by decide) (by decide),
   claim3_payload_size_field.2.2.1 c3sTxnW "44'/0'" c3sOutW pbW
     (by decide) (by decide) (by decide),
   claim3_payload_size_field.2.2.2.1 c3smTxnW "44'/0'" "a" c3smOutW pbW
     (by decide) rfl (by decide) (by decide),
   claim3_payload_size_field.2.2.2.2.1 c3rTxnW "44'/0'" "a" c3rOutW pbW
     (by decide) rfl (by decide) (by decide),
   claim3_payload_size_field.2.2.2.2.2 c3pTxnW "44'/0'" c3pOutW pbW
     (by decide) (by decide) (by decide)⟩

theorem encodeWord32_ok_length {v : ℤ} {b : Bytes} (h : encodeWord32 v = .ok b) :
    b.length = 4 := by
  unfold encodeWord32 at h
  split at h
  · cases h
  · cases h; exact beBytes_length _ _

/-- C9: for a configure-baker transaction whose payload has only the `stake`
and `keys` optional fields, the staged slicer recovers exactly 8 bytes of
stake data and 352 bytes of keys data, at the very offsets the canonical
serializer wrote them (stake at 63, keys at 71 — i.e. in canonical order
stake-then-keys right after header‖kind‖bitmap), with the metadata-URL and
commission outputs empty.  The canonical serializer here is
`configureBakerHandlerSpec`, modelled from the spec (§4.2 bitmap rules)
because the real handler lives in `@concordium/web-sdk`, outside `src/`. -/
theorem claim9_configure_baker_stake_keys :
    ∀ (txn : Txn ConfigureBakerPayload) (path : String) (v : ℕ) (kb : Bytes)
      (out : ConfigureBakerFrames) (txS : Bytes),
      txn.sender.length = 32 →
      txn.payload.stake = some v → txn.payload.keys = some kb →
      kb.length = 352 →
      txn.payload.restakeEarnings = none →
      txn.payload.openForDelegation = none →
      txn.payload.metadataUrl = none →
      txn.payload.transactionFeeCommission = none →
      txn.payload.bakingRewardCommission = none →
      txn.payload.finalizationRewardCommission = none →
      serializeAccountTransaction configureBakerHandlerSpec txn = .ok txS →
      serializeConfigureBaker txn path = .ok out →
      out.payloadFirstBatch =
        beBytes 8 (v % 18446744073709551616) ++ kb.take 192 ∧
      out.payloadAggregationKeys = kb.drop 192 ∧
      out.payloadFirstBatch.length = 8 + 192 ∧
      out.payloadAggregationKeys.length = 160 ∧
      out.payloadUrlLength = [] ∧ out.payloadURL = [] ∧
      out.payloadCommissionFee = [] ∧
      subarrayLen txS 63 8 = beBytes 8 (v % 18446744073709551616) ∧
      subarrayLen txS 71 352 = kb ∧
      txS.drop 63 = beBytes 8 (v % 18446744073709551616) ++ kb ∧
      txS.length = 63 + 8 + 352 := by
  intro txn path v kb out txS hs hstake hkeys hkl hre hod hmu htf hbr hfr htxS hser
  have hp : configureBakerHandlerSpec txn.payload =
      .ok (beBytes 2 9 ++ (beBytes 8 (v % 18446744073709551616) ++ kb)) := by
    simp [configureBakerHandlerSpec, configureBakerBitmap, optBytes, hstake,
      hkeys, hre, hod, hmu, htf, hbr, hfr]
  obtain ⟨p2, hdr, hp2, hhdr, hout⟩ := serializeAccountTransaction_ok_inv htxS
  have hpe : p2 = beBytes 2 9 ++ (beBytes 8 (v % 18446744073709551616) ++ kb) :=
    Except.ok.inj (hp2.symm.trans hp)
  subst hpe
  obtain ⟨n8, e8, s4, x8, hn, he, hsz, hx, hhe⟩ :=
    serializeAccountTransactionHeader_ok_inv hhdr
  have hlen60 : hdr.length = 60 := by
    subst hhe
    simp [hs, encodeWord64_ok_length hn, encodeWord64_ok_length he,
      encodeWord32_ok_length hsz, encodeWord64_ok_length hx]
  have hshape63 : txS = (hdr ++ ([txn.transactionKind % 256] ++ beBytes 2 9)) ++
      (beBytes 8 (v % 18446744073709551616) ++ kb) := by
    rw [hout]
    simp [List.append_assoc]
  have hshape71 : txS = ((hdr ++ ([txn.transactionKind % 256] ++ beBytes 2 9)) ++
      beBytes 8 (v % 18446744073709551616)) ++ kb := by
    rw [hout]
    simp [List.append_assoc]
  have hdrop63 : txS.drop 63 =
      beBytes 8 (v % 18446744073709551616) ++ kb := by
    rw [hshape63]
    apply List.drop_left'
    simp [hlen60, beBytes_length]
  have hdrop71 : txS.drop 71 = kb := by
    rw [hshape71]
    apply List.drop_left'
    simp [hlen60, beBytes_length]
  have hstake8 : subarrayLen txS 63 8 = beBytes 8 (v % 18446744073709551616) := by
    rw [subarrayLen, hdrop63]
    exact List.take_left' (beBytes_length 8 _)
  have hkeys352 : subarrayLen txS 71 352 = kb := by
    rw [subarrayLen, hdrop71]
    exact List.take_of_length_le (le_of_eq hkl)
  have hlenS : txS.length = 63 + 8 + 352 := by
    rw [hout]
    simp [hlen60, beBytes_length, hkl]
  simp only [serializeConfigureBaker] at hser
  rw [bindOk] at hser
  obtain ⟨txS2, htxS2, hser⟩ := hser
  have htxSe : txS2 = txS := Except.ok.inj (htxS2.symm.trans htxS)
  rw [htxSe] at hser
  simp only [hstake, hkeys, hre, hod, hmu, htf, hbr, hfr, Option.isSome_some,
    Option.isSome_none, Bool.false_eq_true, if_true, if_false, ite_true,
    ite_false, Pure.pure, Except.pure, Bind.bind, Except.bind] at hser
  rw [show (63 + 8 : ℕ) = 71 from rfl] at hser
  rcases hfr2 : serializeTransactionPayloadsWithDerivationPath path
      (List.take 63 txS) with e | frames
  · rw [hfr2] at hser
    cases hser
  · rw [hfr2] at hser
    cases hser
    refine ⟨?_, ?_, ?_, ?_, rfl, rfl, rfl, hstake8, hkeys352, hdrop63, hlenS⟩
    · simp [hstake8, hkeys352]
    · simp [hkeys352]
    · simp [hstake8, hkeys352, List.length_take, beBytes_length, hkl]
    · simp [hkeys352, List.length_drop, hkl]

def cbTxnW : Txn ConfigureBakerPayload :=
  { transactionKind := 25, sender := List.replicate 32 0, nonce := 1,
    energyAmount := 1, expiry := 1,
    payload := { stake := some 5, restakeEarnings := none,
                 openForDelegation := none,
                 keys := some (List.replicate 352 7), metadataUrl := none,
                 transactionFeeCommission := none,
                 bakingRewardCommission := none,
                 finalizationRewardCommission := none } }

def cbTxSW : Bytes :=
  List.replicate 32 0 ++ beBytes 8 1 ++ beBytes 8 1 ++ beBytes 4 363 ++
    beBytes 8 1 ++ [25] ++ beBytes 2 9 ++ beBytes 8 5 ++ List.replicate 352 7

def cbOutW : ConfigureBakerFrames :=
  { payloadHeaderKindAndBitmap := pbW ++ List.take 63 cbTxSW,
    payloadFirstBatch := beBytes 8 5 ++ List.take 192 (List.replicate 352 7),
    payloadAggregationKeys := List.drop 192 (List.replicate 352 7),
    payloadUrlLength := [], payloadURL := [], payloadCommissionFee := [] }

set_option maxRecDepth 100000 in
theorem claim9_witness :
    subarrayLen cbTxSW 63 8 = beBytes 8 (5 % 18446744073709551616) ∧
    subarrayLen cbTxSW 71 352 = List.replicate 352 7 ∧
    cbTxSW.length = 63 + 8 + 352 ∧
    cbOutW.payloadFirstBatch =
      beBytes 8 (5 % 18446744073709551616) ++ (List.replicate 352 7).take 192 ∧
    cbOutW.payloadUrlLength = [] ∧ cbOutW.payloadCommissionFee = [] := by
  have h := claim9_configure_baker_stake_keys cbTxnW "44'/0'" 5
    (List.replicate 352 7) cbOutW cbTxSW (by decide) rfl rfl (by decide) rfl rfl
    rfl rfl rfl rfl (by decide) (by decide)
  exact ⟨h.2.2.2.2.2.2.2.1, h.2.2.2.2.2.2.2.2.1, h.2.2.2.2.2.2.2.2.2.2,
    h.1, h.2.2.2.2.1, h.2.2.2.2.2.2.1⟩

/-- After a send chain, `response` is exactly the reply of the last send:
the state holds the reply of send number `counter - 1`. -/
def lastReply (device : Device) (st : ℕ × Bytes) : Prop :=
  st.2 = device (st.1 - 1) ∧ 1 ≤ st.1

theorem sendOne_lastReply (device : Device) (st : ℕ × Bytes) (f : Bytes) :
    lastReply device (sendOne device st f) := by
  simp [sendOne, lastReply]

theorem sendAll_lastReply_of {device : Device} {st : ℕ × Bytes}
    (frames : List Bytes) (h : lastReply device st) :
    lastReply device (sendAll device st frames) := by
  induction frames generalizing st with
  | nil => exact h
  | cons f rest ih =>
      have : sendAll device st (f :: rest) =
          sendAll device (sendOne device st f) rest := rfl
      rw [this]
      exact ih (sendOne_lastReply device st f)

theorem sendAll_lastReply_ne {device : Device} {st : ℕ × Bytes}
    {frames : List Bytes} (h : frames ≠ []) :
    lastReply device (sendAll device st frames) := by
  cases frames with
  | nil => exact absurd rfl h
  | cons f rest =>
      have : sendAll device st (f :: rest) =
          sendAll device (sendOne device st f) rest := rfl
      rw [this]
      exact sendAll_lastReply_of rest (sendOne_lastReply device st f)

theorem jsIdx_ok {xs : List α} {i : ℕ} {x : α} (h : jsIdx xs i = .ok x) :
    xs.get? i = some x := by
  unfold jsIdx at h
  split at h
  · cases h
    next heq => exact heq
  · cases h

theorem ucSendAttrLoop_lastReply {device : Device}
    {out : UpdateCredentialsFrames} {i : ℕ} :
    ∀ {count j : ℕ} {st st' : ℕ × Bytes},
      ucSendAttrLoop device out i count j st = .ok st' →
      lastReply device st → lastReply device st' := by
  intro count
  induction count with
  | zero =>
      intro j st st' h hl
      cases h
      exact hl
  | succ c ih =>
      intro j st st' h hl
      simp only [ucSendAttrLoop] at h
      rw [bindOk] at h
      obtain ⟨ti, hti, h⟩ := h
      rw [bindOk] at h
      obtain ⟨tb, htb, h⟩ := h
      rw [bindOk] at h
      obtain ⟨vi, hvi, h⟩ := h
      rw [bindOk] at h
      obtain ⟨vb, hvb, h⟩ := h
      rw [bindOk] at h
      obtain ⟨wi, hwi, h⟩ := h
      rw [bindOk] at h
      obtain ⟨wb, hwb, h⟩ := h
      exact ih h (sendOne_lastReply _ _ _)

theorem ucSendCredLoop_lastReply {device : Device}
    {out : UpdateCredentialsFrames} :
    ∀ {creds : List NewCredential} {i : ℕ} {st st' : ℕ × Bytes},
      ucSendCredLoop device out creds i st = .ok st' →
      lastReply device st → lastReply device st' := by
  intro creds
  induction creds with
  | nil =>
      intro i st st' h hl
      cases h
      exact hl
  | cons cred rest ih =>
      intro i st st' h hl
      simp only [ucSendCredLoop] at h
      rw [bindOk] at h
      obtain ⟨b1, hb1, h⟩ := h
      rw [bindOk] at h
      obtain ⟨b2, hb2, h⟩ := h
      rw [bindOk] at h
      obtain ⟨b3, hb3, h⟩ := h
      rw [bindOk] at h
      obtain ⟨b4, hb4, h⟩ := h
      rw [bindOk] at h
      obtain ⟨b5, hb5, h⟩ := h
      rw [bindOk] at h
      obtain ⟨b6, hb6, h⟩ := h
      rw [bindOk] at h
      obtain ⟨st1, hst1, h⟩ := h
      rw [bindOk] at h
      obtain ⟨b7, hb7, h⟩ := h
      rw [bindOk] at h
      obtain ⟨pf, hpf, h⟩ := h
      refine ih h ?_
      exact sendAll_lastReply_of _ (sendOne_lastReply _ _ _)

theorem ucSendIdLoop_lastReply {device : Device}
    {out : UpdateCredentialsFrames} :
    ∀ {ids : List Bytes} {i : ℕ} {st st' : ℕ × Bytes},
      ucSendIdLoop device out ids i st = .ok st' →
      lastReply device st → lastReply device st' := by
  intro ids
  induction ids with
  | nil =>
      intro i st st' h hl
      cases h
      exact hl
  | cons b rest ih =>
      intro i st st' h hl
      simp only [ucSendIdLoop] at h
      rw [bindOk] at h
      obtain ⟨x, hx, h⟩ := h
      exact ih h (sendOne_lastReply _ _ _)

theorem withPath_ok_ne_nil {path : String} {rawTx : Bytes} {frames : List Bytes}
    (h : serializeTransactionPayloadsWithDerivationPath path rawTx = .ok frames)
    (hne : rawTx ≠ []) : frames ≠ [] := by
  obtain ⟨pb, -, hcase | hcase⟩ := withPath_ok_inv h
  · exact absurd hcase.1 hne
  · rw [hcase.2]
    simp

theorem serializeTransaction_ok_frames_ne_nil
    {handlerSerialize : α → Except JsError Bytes} {txn : Txn α} {path : String}
    {frames : List Bytes}
    (h : serializeTransaction handlerSerialize txn path = .ok frames) :
    frames ≠ [] := by
  unfold serializeTransaction at h
  rw [bindOk] at h
  obtain ⟨tx, htx, h⟩ := h
  exact withPath_ok_ne_nil h (serializeAccountTransaction_ok_ne_nil htx)

theorem finalizeSign_userDeclined {run : Except JsError (ℕ × Bytes)}
    {st : ℕ × Bytes} (h : run = .ok st) (hl : st.2.length = 1) :
    finalizeSign run = .error .userDeclined := by
  simp [finalizeSign, h, hl, Bind.bind, Except.bind]

theorem signTransferRun_lastReply {handlerSerialize : α → Except JsError Bytes}
    {txn : Txn α} {path : String} {device : Device} {st : ℕ × Bytes}
    (h : signTransferRun handlerSerialize txn path device = .ok st) :
    lastReply device st := by
  simp only [signTransferRun] at h
  rw [bindOk] at h
  obtain ⟨payloads, hpl, h⟩ := h
  cases h
  exact sendAll_lastReply_ne (serializeTransaction_ok_frames_ne_nil hpl)

theorem signConfigureDelegationRun_lastReply
    {handlerSerialize : α → Except JsError Bytes} {txn : Txn α} {path : String}
    {device : Device} {st : ℕ × Bytes}
    (h : signConfigureDelegationRun handlerSerialize txn path device = .ok st) :
    lastReply device st := by
  simp only [signConfigureDelegationRun] at h
  rw [bindOk] at h
  obtain ⟨payloads, hpl, h⟩ := h
  cases h
  exact sendAll_lastReply_ne (serializeTransaction_ok_frames_ne_nil hpl)

theorem signDeployModuleRun_lastReply
    {handlerSerialize : α → Except JsError Bytes} {txn : Txn α} {path : String}
    {device : Device} {st : ℕ × Bytes}
    (h : signDeployModuleRun handlerSerialize txn path device = .ok st) :
    lastReply device st := by
  simp only [signDeployModuleRun] at h
  rw [bindOk] at h
  obtain ⟨payloads, hpl, h⟩ := h
  cases h
  exact sendAll_lastReply_ne (serializeTransaction_ok_frames_ne_nil hpl)

theorem signTransferWithMemoRun_lastReply {txn : Txn MemoPayload}
    {path : String} {device : Device} {st : ℕ × Bytes}
    (h : signTransferWithMemoRun txn path device = .ok st) :
    lastReply device st := by
  simp only [signTransferWithMemoRun] at h
  rw [bindOk] at h
  obtain ⟨o, ho, h⟩ := h
  rw [bindOk] at h
  obtain ⟨f1, hf1, h⟩ := h
  rw [bindOk] at h
  obtain ⟨f2, hf2, h⟩ := h
  rw [bindOk] at h
  obtain ⟨f3, hf3, h⟩ := h
  cases h
  exact sendOne_lastReply _ _ _

theorem signTransferWithScheduleRun_lastReply {txn : Txn SchedulePayload}
    {path : String} {device : Device} {st : ℕ × Bytes}
    (h : signTransferWithScheduleRun txn path device = .ok st) :
    lastReply device st := by
  simp only [signTransferWithScheduleRun] at h
  rw [bindOk] at h
  obtain ⟨o, ho, h⟩ := h
  rw [bindOk] at h
  obtain ⟨f1, hf1, h⟩ := h
  cases h
  exact sendAll_lastReply_of _ (sendOne_lastReply _ _ _)

theorem signTransferWithScheduleAndMemoRun_lastReply
    {txn : Txn ScheduleMemoPayload} {path : String} {device : Device}
    {st : ℕ × Bytes}
    (h : signTransferWithScheduleAndMemoRun txn path device = .ok st) :
    lastReply device st := by
  simp only [signTransferWithScheduleAndMemoRun] at h
  rw [bindOk] at h
  obtain ⟨o, ho, h⟩ := h
  rw [bindOk] at h
  obtain ⟨f1, hf1, h⟩ := h
  rw [bindOk] at h
  obtain ⟨f2, hf2, h⟩ := h
  cases h
  exact sendAll_lastReply_of _ (sendOne_lastReply _ _ _)

theorem signConfigureBakerRun_lastReply {txn : Txn ConfigureBakerPayload}
    {path : String} {device : Device} {st : ℕ × Bytes}
    (h : signConfigureBakerRun txn path device = .ok st) :
    lastReply device st := by
  simp only [signConfigureBakerRun] at h
  rw [bindOk] at h
  obtain ⟨o, ho, h⟩ := h
  cases h
  exact sendOne_lastReply _ _ _

theorem signRegisterDataRun_lastReply {txn : Txn RegisterDataPayload}
    {path : String} {device : Device} {st : ℕ × Bytes}
    (h : signRegisterDataRun txn path device = .ok st) :
    lastReply device st := by
  simp only [signRegisterDataRun] at h
  rw [bindOk] at h
  obtain ⟨o, ho, h⟩ := h
  rw [bindOk] at h
  obtain ⟨f1, hf1, h⟩ := h
  cases h
  exact sendAll_lastReply_of _ (sendOne_lastReply _ _ _)

theorem signTransferToPublicRun_lastReply {txn : Txn ToPublicPayload}
    {path : String} {device : Device} {st : ℕ × Bytes}
    (h : signTransferToPublicRun txn path device = .ok st) :
    lastReply device st := by
  simp only [signTransferToPublicRun] at h
  rw [bindOk] at h
  obtain ⟨o, ho, h⟩ := h
  rw [bindOk] at h
  obtain ⟨f1, hf1, h⟩ := h
  rw [bindOk] at h
  obtain ⟨f2, hf2, h⟩ := h
  cases h
  exact sendAll_lastReply_of _ (sendOne_lastReply _ _ _)

theorem signUpdateCredentialsRun_lastReply
    {handlerSerialize : UpdateCredentialsPayload → Except JsError Bytes}
    {txn : Txn UpdateCredentialsPayload} {path : String} {device : Device}
    {st : ℕ × Bytes}
    (h : signUpdateCredentialsRun handlerSerialize txn path device = .ok st) :
    lastReply device st := by
  simp only [signUpdateCredentialsRun] at h
  rw [bindOk] at h
  obtain ⟨o, ho, h⟩ := h
  rw [bindOk] at h
  obtain ⟨f1, hf1, h⟩ := h
  rw [bindOk] at h
  obtain ⟨st1, hst1, h⟩ := h
  rw [bindOk] at h
  obtain ⟨st2, hst2, h⟩ := h
  cases h
  exact sendOne_lastReply _ _ _

/-- C4: for every signing operation and every transaction kind, if the reply
to the terminal stage (the reply `device (n-1)` of the last of the `n` sends
the call performs) is exactly one byte long, the call fails with the
user-declined error and returns no signature — regardless of how many
stages the kind required. -/
theorem claim4_terminal_one_byte_declines :
    (∀ (α : Type) (handlerSerialize : α → Except JsError Bytes) (txn : Txn α)
       (path : String) (device : Device) (n : ℕ) (r : Bytes),
      signTransferRun handlerSerialize txn path device = .ok (n, r) →
      (device (n - 1)).length = 1 →
      signTransfer handlerSerialize txn path device = .error .userDeclined) ∧
    (∀ (α : Type) (handlerSerialize : α → Except JsError Bytes) (txn : Txn α)
       (path : String) (device : Device) (n : ℕ) (r : Bytes),
      signConfigureDelegationRun handlerSerialize txn path device = .ok (n, r) →
      (device (n - 1)).length = 1 →
      signConfigureDelegation handlerSerialize txn path device =
        .error .userDeclined) ∧
    (∀ (α : Type) (handlerSerialize : α → Except JsError Bytes) (txn : Txn α)
       (path : String) (device : Device) (n : ℕ) (r : Bytes),
      signDeployModuleRun handlerSerialize txn path device = .ok (n, r) →
      (device (n - 1)).length = 1 →
      signDeployModule handlerSerialize txn path device = .error .userDeclined) ∧
    (∀ (txn : Txn MemoPayload) (path : String) (device : Device) (n : ℕ)
       (r : Bytes),
      signTransferWithMemoRun txn path device = .ok (n, r) →
      (device (n - 1)).length = 1 →
      signTransferWithMemo txn path device = .error .userDeclined) ∧
    (∀ (txn : Txn SchedulePayload) (path : String) (device : Device) (n : ℕ)
       (r : Bytes),
      signTransferWithScheduleRun txn path device = .ok (n, r) →
      (device (n - 1)).length = 1 →
      signTransferWithSchedule txn path device = .error .userDeclined) ∧
    (∀ (txn : Txn ScheduleMemoPayload) (path : String) (device : Device)
       (n : ℕ) (r : Bytes),
      signTransferWithScheduleAndMemoRun txn path device = .ok (n, r) →
      (device (n - 1)).length = 1 →
      signTransferWithScheduleAndMemo txn path device = .error .userDeclined) ∧
    (∀ (txn : Txn ConfigureBakerPayload) (path : String) (device : Device)
       (n : ℕ) (r : Bytes),
      signConfigureBakerRun txn path device = .ok (n, r) →
      (device (n - 1)).length = 1 →
      signConfigureBaker txn path device = .error .userDeclined) ∧
    (∀ (txn : Txn RegisterDataPayload) (path : String) (device : Device)
       (n : ℕ) (r : Bytes),
      signRegisterDataRun txn path device = .ok (n, r) →
      (device (n - 1)).length = 1 →
      signRegisterData txn path device = .error .userDeclined) ∧
    (∀ (txn : Txn ToPublicPayload) (path : String) (device : Device) (n : ℕ)
       (r : Bytes),
      signTransferToPublicRun txn path device = .ok (n, r) →
      (device (n - 1)).length = 1 →
      signTransferToPublic txn path device = .error .userDeclined) ∧
    (∀ (handlerSerialize : UpdateCredentialsPayload → Except JsError Bytes)
       (txn : Txn UpdateCredentialsPayload) (path : String) (device : Device)
       (n : ℕ) (r : Bytes),
      signUpdateCredentialsRun handlerSerialize txn path device = .ok (n, r) →
      (device (n - 1)).length = 1 →
      signUpdateCredentials handlerSerialize txn path device =
        .error .userDeclined) := by
  refine ⟨?_, ?_, ?_, ?_, ?_, ?_, ?_, ?_, ?_, ?_⟩
  · intro α handlerSerialize txn path device n r hrun hlen
    have hlr := signTransferRun_lastReply hrun
    unfold signTransfer
    exact finalizeSign_userDeclined hrun (by rw [hlr.1]; exact hlen)
  · intro α handlerSerialize txn path device n r hrun hlen
    have hlr := signConfigureDelegationRun_lastReply hrun
    unfold signConfigureDelegation
    exact finalizeSign_userDeclined hrun (by rw [hlr.1]; exact hlen)
  · intro α handlerSerialize txn path device n r hrun hlen
    have hlr := signDeployModuleRun_lastReply hrun
    unfold signDeployModule
    exact finalizeSign_userDeclined hrun (by rw [hlr.1]; exact hlen)
  · intro txn path device n r hrun hlen
    have hlr := signTransferWithMemoRun_lastReply hrun
    unfold signTransferWithMemo
    exact finalizeSign_userDeclined hrun (by rw [hlr.1]; exact hlen)
  · intro txn path device n r hrun hlen
    have hlr := signTransferWithScheduleRun_lastReply hrun
    unfold signTransferWithSchedule
    exact finalizeSign_userDeclined hrun (by rw [hlr.1]; exact hlen)
  · intro txn path device n r hrun hlen
    have hlr := signTransferWithScheduleAndMemoRun_lastReply hrun
    unfold signTransferWithScheduleAndMemo
    exact finalizeSign_userDeclined hrun (by rw [hlr.1]; exact hlen)
  · intro txn path device n r hrun hlen
    have hlr := signConfigureBakerRun_lastReply hrun
    unfold signConfigureBaker
    exact finalizeSign_userDeclined hrun (by rw [hlr.1]; exact hlen)
  · intro txn path device n r hrun hlen
    have hlr := signRegisterDataRun_lastReply hrun
    unfold signRegisterData
    exact finalizeSign_userDeclined hrun (by rw [hlr.1]; exact hlen)
  · intro txn path device n r hrun hlen
    have hlr := signTransferToPublicRun_lastReply hrun
    unfold signTransferToPublic
    exact finalizeSign_userDeclined hrun (by rw [hlr.1]; exact hlen)
  · intro handlerSerialize txn path device n r hrun hlen
    have hlr := signUpdateCredentialsRun_lastReply hrun
    unfold signUpdateCredentials
    exact finalizeSign_userDeclined hrun (by rw [hlr.1]; exact hlen)

/-- A device that answers every stage with the one-byte decline reply. -/
def c4Device : Device := fun _ => [0]

def c4GenTxnW : Txn Unit :=
  { transactionKind := 3, sender := List.replicate 32 0, nonce := 1,
    energyAmount := 1, expiry := 1, payload := () }

def c4ucTxnW : Txn UpdateCredentialsPayload :=
  { transactionKind := 20, sender := List.replicate 32 0, nonce := 1,
    energyAmount := 1, expiry := 1,
    payload := { newCredentials := [], removeCredentialIds := [] } }

set_option maxRecDepth 100000 in
theorem claim4_witness :
    signTransfer (fun _ => .ok [7]) c4GenTxnW "44'/0'" c4Device =
      .error .userDeclined ∧
    signConfigureDelegation (fun _ => .ok [7]) c4GenTxnW "44'/0'" c4Device =
      .error .userDeclined ∧
    signDeployModule (fun _ => .ok [7]) c4GenTxnW "44'/0'" c4Device =
      .error .userDeclined ∧
    signTransferWithMemo c3mTxnW "44'/0'" c4Device = .error .userDeclined ∧
    signTransferWithSchedule c3sTxnW "44'/0'" c4Device = .error .userDeclined ∧
    signTransferWithScheduleAndMemo c3smTxnW "44'/0'" c4Device =
      .error .userDeclined ∧
    signConfigureBaker cbTxnW "44'/0'" c4Device = .error .userDeclined ∧
    signRegisterData c3rTxnW "44'/0'" c4Device = .error .userDeclined ∧
    signTransferToPublic c3pTxnW "44'/0'" c4Device = .error .userDeclined ∧
    signUpdateCredentials (fun _ => .ok [0, 0, 0]) c4ucTxnW "44'/0'" c4Device =
      .error .userDeclined :=
  ⟨claim4_terminal_one_byte_declines.1 Unit (fun _ => .ok [7]) c4GenTxnW
     "44'/0'" c4Device 1 [0] (by decide) (by decide),
   claim4_terminal_one_byte_declines.2.1 Unit (fun _ => .ok [7]) c4GenTxnW
     "44'/0'" c4Device 1 [0] (by decide) (by decide),
   claim4_terminal_one_byte_declines.2.2.1 Unit (fun _ => .ok [7]) c4GenTxnW
     "44'/0'" c4Device 1 [0] (by decide) (by decide),
   claim4_terminal_one_byte_declines.2.2.2.1 c3mTxnW "44'/0'" c4Device 3 [0]
     (by decide) (by decide),
   claim4_terminal_one_byte_declines.2.2.2.2.1 c3sTxnW "44'/0'" c4Device 2 [0]
     (by decide) (by decide),
   claim4_terminal_one_byte_declines.2.2.2.2.2.1 c3smTxnW "44'/0'" c4Device 3
     [0] (by decide) (by decide),
   claim4_terminal_one_byte_declines.2.2.2.2.2.2.1 cbTxnW "44'/0'" c4Device 6
     [0] (by decide) (by decide),
   claim4_terminal_one_byte_declines.2.2.2.2.2.2.2.1 c3rTxnW "44'/0'" c4Device
     2 [0] (by decide) (by decide),
   claim4_terminal_one_byte_declines.2.2.2.2.2.2.2.2.1 c3pTxnW "44'/0'"
     c4Device 3 [0] (by decide) (by decide),
   claim4_terminal_one_byte_declines.2.2.2.2.2.2.2.2.2 (fun _ => .ok [0, 0, 0])
     c4ucTxnW "44'/0'" c4Device 3 [0] (by decide) (by decide)⟩

